import Mathlib

/-!
Verification of the hwloc Level Zero discovery backend
(`src/hwloc/topology-levelzero.c`).

The C file is shallowly embedded below.  Vendor API calls
(`zeDeviceGetProperties`, `zesDeviceEnumMemoryModules`, ...) are modelled by
oracle records holding each call's outcome (`none` = API error); `malloc`
outcomes are booleans; machine integers are `Nat`/`Int` (sizes fit in
`uint64`, far from overflow on realistic inputs); `snprintf("%u")`/`"%llu"`
rendering is modelled by an explicit decimal renderer and `"%lx"` by a
hexadecimal one.  Process-global statics (`warned`, `memory_from_coreapi`,
`first`) are threaded explicitly.  Side effects (node creation, attribute
insertion, `fprintf` diagnostics, vendor API invocations) are collected in
explicit effect lists in program order.
-/

namespace LevelZero

/-! ### Decimal / hexadecimal rendering (snprintf "%u", "%llu", "%lx")

Follows the shape of C's digit loop: emit `n % base` digits, recurse on
`n / base`, stop when the quotient is zero.  The fuel argument only bounds
recursion depth; it is never exhausted for `fuel > n`. -/

def digitChar (d : Nat) : Char :=
  Char.ofNat (if d < 10 then 48 + d else 87 + d)

def natStrAux (base : Nat) : Nat → Nat → List Char → List Char
  | 0, _, ds => ds
  | fuel + 1, n, ds =>
    let d := digitChar (n % base)
    let q := n / base
    if q = 0 then d :: ds else natStrAux base fuel q (d :: ds)

def natDec (n : Nat) : String := String.mk (natStrAux 10 (n + 1) n [])

def natHex (n : Nat) : String := String.mk (natStrAux 16 (n + 1) n [])

/-! ### strcasecmp against the "Unknown" sentinel -/

def asciiLower (c : Char) : Char :=
  if 65 ≤ c.toNat ∧ c.toNat ≤ 90 then Char.ofNat (c.toNat + 32) else c

/-- `strcasecmp(a, b) == 0`, i.e. the two strings are equal up to ASCII case. -/
def strCaseEq (a b : String) : Bool :=
  a.data.map asciiLower = b.data.map asciiLower

/-! ### Vendor API data (ze_api.h / zes_api.h subset used by the backend) -/

inductive ZeDeviceType
  | GPU | CPU | FPGA | MCA | VPU
  | other (u : Nat)
deriving DecidableEq, Repr

/-- The `switch (prop.type)` in `hwloc__levelzero_properties_get`. -/
def deviceTypeString : ZeDeviceType → String
  | .GPU => "GPU"
  | .CPU => "CPU"
  | .FPGA => "FPGA"
  | .MCA => "MCA"
  | .VPU => "VPU"
  | .other _ => "Unknown"

/-- `ze_device_properties_t` (fields read by the backend; the two flag bits
`ZE_DEVICE_PROPERTY_FLAG_SUBDEVICE` and `..._INTEGRATED` are split out). -/
structure ZeDeviceProps where
  type : ZeDeviceType
  numSlices : Nat
  numSubslicesPerSlice : Nat
  numEUsPerSubslice : Nat
  numThreadsPerEU : Nat
  flagSubdevice : Bool
  flagIntegrated : Bool
deriving DecidableEq, Repr

/-- `zes_device_properties_t` (string fields read by the backend). -/
structure ZesDeviceProps where
  vendorName : String
  modelName : String
  brandName : String
  serialNumber : String
  boardNumber : String
deriving DecidableEq, Repr

/-- `ze_command_queue_group_properties_t` (fields read by the backend). -/
structure CQProp where
  numQueues : Nat
  flags : Nat
deriving DecidableEq, Repr

/-! ### Vendor API call trace -/

inductive ApiCall
  | zeInit
  | zeDriverGet
  | zeDeviceGet (drv : Nat)
  | zeDeviceGetProperties (h : Nat)
  | zesDeviceGetProperties (h : Nat)
  | zeDeviceGetCommandQueueGroupProperties (h : Nat)
  | zeDeviceGetSubDevices (h : Nat)
  | zesDeviceEnumMemoryModules (h : Nat)
  | zesMemoryGetProperties (h m : Nat)
  | zesMemoryGetState (h m : Nat)
  | zeDeviceGetMemoryProperties (h : Nat)
  | zesDevicePciGetProperties (h : Nat)
deriving DecidableEq, Repr

/-! ### hwloc__levelzero_properties_get -/

/-- Result of `hwloc__levelzero_properties_get`: attributes added to the
node (in `hwloc_obj_add_info` order), the value stored through
`*is_integrated_p`, the two distinct `fprintf` sites (unexpected device
type, and the once-per-process sysman diagnostic), the updated static
`warned`, and the vendor calls made. -/
structure PropResult where
  attrs : List (String × String)
  isIntegrated : Bool
  typeMsgs : List String
  sysMsgs : List String
  warned : Bool
  calls : List ApiCall
deriving DecidableEq, Repr

/-- Attributes recorded from `zes_device_properties_t`: each string is kept
only when it differs case-insensitively from "Unknown". -/
def zesInfoAttrs (z : ZesDeviceProps) : List (String × String) :=
  (if strCaseEq z.vendorName "Unknown" then [] else [("LevelZeroVendor", z.vendorName)]) ++
  (if strCaseEq z.modelName "Unknown" then [] else [("LevelZeroModel", z.modelName)]) ++
  (if strCaseEq z.brandName "Unknown" then [] else [("LevelZeroBrand", z.brandName)]) ++
  (if strCaseEq z.serialNumber "Unknown" then [] else [("LevelZeroSerialNumber", z.serialNumber)]) ++
  (if strCaseEq z.boardNumber "Unknown" then [] else [("LevelZeroBoardNumber", z.boardNumber)])

/-- The diagnostic printed (at most once per process) when
`zesDeviceGetProperties` fails, worded by `sysman_maybe_missing`;
nothing is printed when the cause is unknown (`sysman_maybe_missing = 0`)
or when error hiding is on. -/
def sysmanFailMsg (sysmanMaybeMissing : Nat) (hideErrors : Bool) : List String :=
  if sysmanMaybeMissing = 1 ∧ ¬hideErrors then
    ["hwloc/levelzero: zesDeviceGetProperties() failed (ZES_ENABLE_SYSMAN=1 set too late?)."]
  else if sysmanMaybeMissing = 2 ∧ ¬hideErrors then
    ["hwloc/levelzero: zesDeviceGetProperties() failed (ZES_ENABLE_SYSMAN=0)."]
  else []

/-- `hwloc__levelzero_properties_get(h, osdev, sysman_maybe_missing,
is_integrated_p)`.  `getProps`/`zesProps` are the outcomes of the two vendor
queries on handle `h` (`none` = error), `warned` is the static one-shot
flag on entry. -/
def properties_get (h : Nat) (getProps : Option ZeDeviceProps)
    (zesProps : Option ZesDeviceProps) (sysmanMaybeMissing : Nat)
    (hideErrors : Bool) (warned : Bool) : PropResult :=
  let base :=
    match getProps with
    | none => ([], false, false, ([] : List String))
    | some p =>
      ([("LevelZeroDeviceType", deviceTypeString p.type),
        ("LevelZeroNumSlices", natDec p.numSlices),
        ("LevelZeroNumSubslicesPerSlice", natDec p.numSubslicesPerSlice),
        ("LevelZeroNumEUsPerSubslice", natDec p.numEUsPerSubslice),
        ("LevelZeroNumThreadsPerEU", natDec p.numThreadsPerEU)],
       p.flagSubdevice, p.flagIntegrated,
       (match p.type with
        | .other u =>
          if hideErrors then []
          else ["hwloc/levelzero: unexpected device type " ++ natDec u]
        | _ => []))
  match base with
  | (attrs1, isSub, isInt, tMsgs) =>
    if isSub then
      -- sysman API on a subdevice duplicates the root device: skip it
      ⟨attrs1, isInt, tMsgs, [], warned, [.zeDeviceGetProperties h]⟩
    else
      match zesProps with
      | some z =>
        ⟨attrs1 ++ zesInfoAttrs z, isInt, tMsgs, [], warned,
         [.zeDeviceGetProperties h, .zesDeviceGetProperties h]⟩
      | none =>
        if warned then
          ⟨attrs1, isInt, tMsgs, [], warned,
           [.zeDeviceGetProperties h, .zesDeviceGetProperties h]⟩
        else
          ⟨attrs1, isInt, tMsgs, sysmanFailMsg sysmanMaybeMissing hideErrors, true,
           [.zeDeviceGetProperties h, .zesDeviceGetProperties h]⟩

/-! ### hwloc__levelzero_cqprops_get -/

/-- The attributes recorded once the filled descriptor list is available. -/
def cqAttrs (l : List CQProp) : List (String × String) :=
  ("LevelZeroCQGroups", natDec l.length) ::
    (List.range l.length).map (fun k =>
      ("LevelZeroCQGroup" ++ natDec k,
       natDec ((l.getD k ⟨0, 0⟩).numQueues) ++ "*0x" ++ natHex ((l.getD k ⟨0, 0⟩).flags)))

/-- `hwloc__levelzero_cqprops_get(h, osdev)`.  `cqCount` is the first
(count) query, `allocOk` the `malloc` outcome, `cqList` the second (fill)
query; any failure or a zero count is a silent no-op. -/
def cqprops_get (h : Nat) (cqCount : Option Nat) (allocOk : Bool)
    (cqList : Option (List CQProp)) : List (String × String) × List ApiCall :=
  match cqCount with
  | none => ([], [.zeDeviceGetCommandQueueGroupProperties h])
  | some 0 => ([], [.zeDeviceGetCommandQueueGroupProperties h])
  | some (_ + 1) =>
    if allocOk then
      match cqList with
      | some l =>
        (cqAttrs l,
         [.zeDeviceGetCommandQueueGroupProperties h, .zeDeviceGetCommandQueueGroupProperties h])
      | none =>
        ([], [.zeDeviceGetCommandQueueGroupProperties h, .zeDeviceGetCommandQueueGroupProperties h])
    else ([], [.zeDeviceGetCommandQueueGroupProperties h])

/-! ### Memory model: hwloc__levelzero_memory_get_from_sysman -/

inductive ZesMemType
  | HBM | DDR | DDR3 | DDR4 | DDR5 | LPDDR | LPDDR3 | LPDDR4 | LPDDR5
  | other (u : Nat)
deriving DecidableEq, Repr

/-- The DDR-family cases of the `switch (mprop.type)`. -/
def isDDRFamily : ZesMemType → Bool
  | .DDR | .DDR3 | .DDR4 | .DDR5 | .LPDDR | .LPDDR3 | .LPDDR4 | .LPDDR5 => true
  | _ => false

/-- The `type` string chosen by the `switch (mprop.type)`. -/
def memTypeString (t : ZesMemType) : String :=
  if t = .HBM then "HBM" else if isDDRFamily t then "DDR" else "Memory"

/-- `zes_mem_properties_t` (fields read by the backend). -/
structure ZesMemProps where
  physicalSize : Nat
  onSubdevice : Bool
  subdeviceId : Nat
  type : ZesMemType
deriving DecidableEq, Repr

/-- One enumerated memory module: the outcome of `zesMemoryGetProperties`
(`none` = error) and of `zesMemoryGetState` (queried only when
`physicalSize` is 0; `none` = error). -/
structure MemModule where
  props : Option ZesMemProps
  stateSize : Option Nat
deriving DecidableEq, Repr

/-- Which node an attribute lands on. -/
inductive Target
  | root
  | sub (k : Nat)
deriving DecidableEq, Repr

/-- One `hwloc_obj_add_info` performed by the memory collector. -/
abbrev Emission := Target × String × String

/-- The effective module size: `mprop.physicalSize`, falling back to the
`zes_mem_state_t` size when it is 0 and the state query succeeds. -/
def moduleSize (m : MemModule) (p : ZesMemProps) : Nat :=
  if p.physicalSize = 0 then
    match m.stateSize with
    | some s => s
    | none => 0
  else p.physicalSize

/-- The `osdev` chosen for a module: `none` models the `osdev = NULL` case
(on-subdevice module with an out-of-range `subdeviceId`, zero subdevice
nodes, or a NULL `sub_osdevs` array). -/
def moduleTarget (nrOsdevs : Nat) (subsPresent : Bool) (p : ZesMemProps) : Option Target :=
  if p.onSubdevice then
    if nrOsdevs ≤ p.subdeviceId ∨ nrOsdevs = 0 ∨ ¬subsPresent then none
    else some (.sub p.subdeviceId)
  else some .root

/-- Loop body of the module loop: accumulates `(totalHBMkB, totalDDRkB,
emissions)`.  The type switch adds to the totals before the
`!osdev || !type || !size` `continue`, so NULL-target modules still count;
only subdevice-targeted modules get an immediate attribute. -/
def sysmanStep (nrOsdevs : Nat) (subsPresent : Bool)
    (acc : Nat × Nat × List Emission) (m : MemModule) : Nat × Nat × List Emission :=
  match m.props with
  | none => acc
  | some p =>
    match acc with
    | (hbm, ddr, ems) =>
      let sz := moduleSize m p
      let hbm := if p.type = .HBM then hbm + sz / 1024 else hbm
      let ddr := if isDDRFamily p.type then ddr + sz / 1024 else ddr
      match moduleTarget nrOsdevs subsPresent p with
      | none => (hbm, ddr, ems)
      | some .root => (hbm, ddr, ems)
      | some (.sub k) =>
        if sz = 0 then (hbm, ddr, ems)
        else (hbm, ddr,
              ems ++ [(Target.sub k, "LevelZero" ++ memTypeString p.type ++ "Size",
                       natDec (sz / 1024))])

/-- Outcomes of the sysman-side vendor calls for one root device:
first `zesDeviceEnumMemoryModules` (count; `none` = error), the `malloc`
outcome, and the second `zesDeviceEnumMemoryModules` (fill; `none` = error). -/
structure MemSysOracle where
  enum1 : Option Nat
  allocOk : Bool
  enum2 : Option (List MemModule)
deriving DecidableEq, Repr

/-- Result of `hwloc__levelzero_memory_get_from_sysman`: the C return value
(0, or -1 when the first enumeration call fails), the attributes added (in
order), the final aggregate totals, and the vendor calls made. -/
structure SysmanResult where
  ret : Int
  emissions : List Emission
  totalHBMkB : Nat
  totalDDRkB : Nat
  calls : List ApiCall
deriving DecidableEq, Repr

/-- The root-device aggregate attributes, emitted after the module loop and
only when non-zero. -/
def rootAggEmissions (hbm ddr : Nat) : List Emission :=
  (if hbm ≠ 0 then [(Target.root, "LevelZeroHBMSize", natDec hbm)] else []) ++
  (if ddr ≠ 0 then [(Target.root, "LevelZeroDDRSize", natDec ddr)] else [])

/-- Vendor calls of the module loop (property query per module, plus a
state query when the reported size is 0). -/
def sysmanModuleCalls (h : Nat) (ms : List MemModule) : List ApiCall :=
  (List.range ms.length).flatMap (fun m =>
    ApiCall.zesMemoryGetProperties h m ::
      (match (ms.getD m ⟨none, none⟩).props with
       | some p => if p.physicalSize = 0 then [ApiCall.zesMemoryGetState h m] else []
       | none => []))

/-- `hwloc__levelzero_memory_get_from_sysman(h, root_osdev, nr_osdevs,
sub_osdevs)`.  `subsPresent` models `sub_osdevs != NULL`. -/
def memory_get_from_sysman (h : Nat) (o : MemSysOracle) (nrOsdevs : Nat)
    (subsPresent : Bool) : SysmanResult :=
  match o.enum1 with
  | none => ⟨-1, [], 0, 0, [.zesDeviceEnumMemoryModules h]⟩
  | some 0 => ⟨0, [], 0, 0, [.zesDeviceEnumMemoryModules h]⟩
  | some (_ + 1) =>
    if o.allocOk then
      match o.enum2 with
      | some ms =>
        match ms.foldl (sysmanStep nrOsdevs subsPresent) (0, 0, []) with
        | (hbm, ddr, ems) =>
          ⟨0, ems ++ rootAggEmissions hbm ddr, hbm, ddr,
           [.zesDeviceEnumMemoryModules h, .zesDeviceEnumMemoryModules h] ++
             sysmanModuleCalls h ms⟩
      | none =>
        ⟨0, [], 0, 0, [.zesDeviceEnumMemoryModules h, .zesDeviceEnumMemoryModules h]⟩
    else
      ⟨0, [], 0, 0, [.zesDeviceEnumMemoryModules h]⟩

/-! ### hwloc__levelzero_memory_get_from_coreapi -/

/-- `ze_device_memory_properties_t` (fields read by the backend). -/
structure MemDomain where
  name : String
  totalSize : Nat
deriving DecidableEq, Repr

/-- Outcomes of the coreapi-side vendor calls for one handle. -/
structure MemCoreOracle where
  enum1 : Option Nat
  allocOk : Bool
  enum2 : Option (List MemDomain)
deriving DecidableEq, Repr

/-- Loop body of the domain loop: skip zero-size domains, skip a domain
literally named "DDR" when `ignore_ddr`, default an empty name to
"Memory". -/
def coreapiDomainAttr (ignoreDDR : Bool) (d : MemDomain) : Option (String × String) :=
  if d.totalSize = 0 then none
  else if ignoreDDR ∧ d.name = "DDR" then none
  else
    let nm := if d.name = "" then "Memory" else d.name
    some ("LevelZero" ++ nm ++ "Size", natDec (d.totalSize / 1024))

/-- `hwloc__levelzero_memory_get_from_coreapi(h, osdev, ignore_ddr)`. -/
def memory_get_from_coreapi (h : Nat) (o : MemCoreOracle) (ignoreDDR : Bool) :
    List (String × String) × List ApiCall :=
  match o.enum1 with
  | none => ([], [.zeDeviceGetMemoryProperties h])
  | some 0 => ([], [.zeDeviceGetMemoryProperties h])
  | some (_ + 1) =>
    if o.allocOk then
      match o.enum2 with
      | some ds =>
        (ds.filterMap (coreapiDomainAttr ignoreDDR),
         [.zeDeviceGetMemoryProperties h, .zeDeviceGetMemoryProperties h])
      | none =>
        ([], [.zeDeviceGetMemoryProperties h, .zeDeviceGetMemoryProperties h])
    else ([], [.zeDeviceGetMemoryProperties h])

/-! ### hwloc__levelzero_memory_get (dispatch with process-wide statics) -/

/-- Per-device-handle outcomes of every vendor query the backend may issue
on that handle.  `subsFirst` is the first `zeDeviceGetSubDevices` (count)
call, `subAllocOk` the conjunction of the two array `malloc`s, `subHandles`
the array filled by the second (unchecked) `zeDeviceGetSubDevices` call. -/
structure DevOracle where
  getProps : Option ZeDeviceProps
  zesProps : Option ZesDeviceProps
  cqCount : Option Nat
  cqAllocOk : Bool
  cqList : Option (List CQProp)
  memSys : MemSysOracle
  memCore : MemCoreOracle
  subsFirst : Option Nat
  subAllocOk : Bool
  subHandles : List Nat
  pciOk : Bool

/-- The two statics of `hwloc__levelzero_memory_get`:
`memory_from_coreapi` (1 = coreapi, 0 = sysman, -1 = undecided) and
`first`. -/
structure MemState where
  memory_from_coreapi : Int
  first : Bool
deriving DecidableEq, Repr

/-- The statics' initializers. -/
def initMemState : MemState := ⟨-1, true⟩

/-- One invocation's arguments: the per-handle oracle table, the
`HWLOC_L0_COREAPI_MEMORY` environment value (as read by `getenv`+`atoi`;
`none` = unset), and the C arguments. -/
structure MemCall where
  query : Nat → DevOracle
  env : Option Int
  h : Nat
  isIntegrated : Bool
  nrSubdevices : Nat
  subh : List Nat
  subsPresent : Bool

/-- Result of one `hwloc__levelzero_memory_get` invocation: updated
statics, whether this invocation ran the detailed-vs-basic probe (the
`memory_from_coreapi == -1` sysman attempt), the attributes added, and the
vendor calls made. -/
structure MemGetResult where
  st : MemState
  probed : Bool
  emissions : List Emission
  calls : List ApiCall
deriving DecidableEq, Repr

/-- The post-decision body of `hwloc__levelzero_memory_get`: coreapi on the
root and each subdevice handle when `memory_from_coreapi > 0`, sysman on
the root handle otherwise. -/
def memory_get_dispatch (c : MemCall) (st : MemState) (probed : Bool) : MemGetResult :=
  if st.memory_from_coreapi > 0 then
    let ignoreDDR := (st.memory_from_coreapi ≠ 2) ∧ c.isIntegrated
    let rootRes := memory_get_from_coreapi c.h ((c.query c.h).memCore) ignoreDDR
    let subRes := (List.range c.nrSubdevices).map (fun k =>
      let sh := c.subh.getD k 0
      (k, memory_get_from_coreapi sh ((c.query sh).memCore) ignoreDDR))
    { st := st, probed := probed,
      emissions :=
        rootRes.1.map (fun kv => ((Target.root : Target), kv.1, kv.2)) ++
          (subRes.map (fun kr => kr.2.1.map (fun kv => ((Target.sub kr.1 : Target), kv.1, kv.2)))).flatten,
      calls := rootRes.2 ++ (subRes.map (fun kr => kr.2.2)).flatten }
  else
    let r := memory_get_from_sysman c.h ((c.query c.h).memSys) c.nrSubdevices c.subsPresent
    { st := st, probed := probed, emissions := r.emissions, calls := r.calls }

/-- `hwloc__levelzero_memory_get(h, root_osdev, is_integrated,
nr_subdevices, subh, sub_osdevs)` with the statics threaded explicitly.
Note that the successful-probe path returns before `first = 0`. -/
def memory_get (c : MemCall) (st : MemState) : MemGetResult :=
  if st.first then
    let mfc :=
      match c.env with
      | some v => v
      | none => st.memory_from_coreapi
    if mfc = -1 then
      let r := memory_get_from_sysman c.h ((c.query c.h).memSys) c.nrSubdevices c.subsPresent
      if r.ret = 0 then
        -- sysman worked: commit and return; `first` is NOT cleared here
        { st := ⟨0, st.first⟩, probed := true, emissions := r.emissions, calls := r.calls }
      else
        -- sysman failed: commit to coreapi and fall through
        let r2 := memory_get_dispatch c ⟨1, false⟩ true
        { r2 with calls := r.calls ++ r2.calls }
    else
      memory_get_dispatch c ⟨mfc, false⟩ false
  else
    memory_get_dispatch c st false

/-- A sequence of collector invocations: final statics and how many of the
invocations ran the detailed-vs-basic probe. -/
def memRun : List MemCall → MemState → MemState × Nat
  | [], st => (st, 0)
  | c :: cs, st =>
    let r := memory_get c st
    let rest := memRun cs r.st
    (rest.1, (if r.probed then 1 else 0) + rest.2)

/-! ### hwloc_levelzero_discover -/

/-- Per-driver-handle outcomes: first `zeDeviceGet` (count; `none` = error),
the `malloc` outcome, second `zeDeviceGet` (fill with device handles). -/
structure DrvOracle where
  devsFirst : Option Nat
  devAllocOk : Bool
  devsSecond : Option (List Nat)

/-- The environment `hwloc_levelzero_discover` runs against: the topology
type filter, the two environment variables (`ZES_ENABLE_SYSMAN` and
`HWLOC_L0_COREAPI_MEMORY`, given as `getenv`+`atoi` outcomes), error
hiding, `zeInit`, driver enumeration, and the per-handle query tables. -/
structure World where
  filterKeepNone : Bool
  envZES : Option Int
  envCoreMem : Option Int
  hideErrors : Bool
  zeInitOk : Bool
  drvFirst : Option Nat
  drvAllocOk : Bool
  drvSecond : Option (List Nat)
  drvQuery : Nat → DrvOracle
  query : Nat → DevOracle

/-- The process-wide statics touched by one discovery run. -/
structure GState where
  warned : Bool
  mem : MemState
deriving DecidableEq, Repr

/-- Statics at process start. -/
def initGState : GState := ⟨false, initMemState⟩

/-- A created OS-device node: its name and its ordered attribute list. -/
structure Node where
  name : String
  attrs : List (String × String)
deriving DecidableEq, Repr

/-- Collector invocations, as the spec describes them: PropertyCollector
(with its handle argument and whether the integration flag is requested),
CommandQueueGroupCollector, and MemoryCollector (with the subdevice count
and handle array it receives). -/
inductive CollCall
  | props (h : Nat) (wantsIntegration : Bool)
  | cq (h : Nat)
  | mem (h : Nat) (nrSubdevices : Nat) (subh : List Nat)
deriving DecidableEq, Repr

/-- Effects accumulated while processing devices. -/
structure DevEffects where
  calls : List ApiCall
  collCalls : List CollCall
  typeMsgs : List String
  sysMsgs : List String
  nodes : List Node
deriving DecidableEq, Repr

def DevEffects.empty : DevEffects := ⟨[], [], [], [], []⟩

def DevEffects.app (a b : DevEffects) : DevEffects :=
  ⟨a.calls ++ b.calls, a.collCalls ++ b.collCalls, a.typeMsgs ++ b.typeMsgs,
   a.sysMsgs ++ b.sysMsgs, a.nodes ++ b.nodes⟩

/-- Root-device node name: `snprintf(buffer, sizeof(buffer), "ze%u", zeidx)`.
(The 13-byte buffer cannot truncate a root name; truncation of gigantic
subdevice names is not modelled.) -/
def rootName (zeidx : Nat) : String := "ze" ++ natDec zeidx

/-- Subdevice node name: `snprintf(buffer, sizeof(buffer), "ze%u.%u", zeidx, k)`. -/
def subName (zeidx k : Nat) : String := "ze" ++ natDec zeidx ++ "." ++ natDec k

/-- Attributes landing on a given target among the memory emissions. -/
def emsFor (t : Target) (ems : List Emission) : List (String × String) :=
  ems.filterMap (fun e => if e.1 = t then some e.2 else none)

/-- The subdevice loop (`for(k=0; k<nr_subdevices; k++)`), threading the
`warned` static.  `ks` enumerates the loop counter values; `j` is the
enclosing device loop index.  The C code queries the properties of
`subh[j]` — the device index, not the subdevice index `k` — while the
command-queue query uses `subh[k]`; the model reproduces this verbatim
(an out-of-range `subh[j]` read is undefined in C and modelled by
`getD _ 0`). -/
def subLoop (query : Nat → DevOracle) (smm : Nat) (hideErrors : Bool)
    (zeidx j : Nat) (subHandles : List Nat) :
    List Nat → Bool → DevEffects × Bool
  | [], w => (DevEffects.empty, w)
  | k :: ks, w =>
    let shProp := subHandles.getD j 0
    let shCq := subHandles.getD k 0
    let op := query shProp
    let oc := query shCq
    let pr := properties_get shProp op.getProps op.zesProps smm hideErrors w
    let cq := cqprops_get shCq oc.cqCount oc.cqAllocOk oc.cqList
    let node : Node :=
      ⟨subName zeidx k,
       [("Backend", "LevelZero"), ("LevelZeroSubdeviceID", natDec k)] ++ pr.attrs ++ cq.1⟩
    let rest := subLoop query smm hideErrors zeidx j subHandles ks pr.warned
    (DevEffects.app
      ⟨pr.calls ++ cq.2, [.props shProp false, .cq shCq], pr.typeMsgs, pr.sysMsgs, [node]⟩
      rest.1,
     rest.2)

/-- Processing of one device (the body of the `for(j...)` loop):
root node setup, PropertyCollector and CommandQueueGroupCollector on the
root, subdevice enumeration and per-subdevice collectors, MemoryCollector
once for the whole set, PCI parent query, insertion of the root node and
the subdevice nodes. -/
def processDevice (w : World) (smm : Nat) (g : GState) (i j zeidx h : Nat) :
    DevEffects × GState :=
  let o := w.query h
  let baseAttrs : List (String × String) :=
    [("Backend", "LevelZero"),
     ("LevelZeroDriverIndex", natDec i),
     ("LevelZeroDriverDeviceIndex", natDec j)]
  let pr := properties_get h o.getProps o.zesProps smm w.hideErrors g.warned
  let cq := cqprops_get h o.cqCount o.cqAllocOk o.cqList
  -- subdevice enumeration: branch taken when the first call succeeds with
  -- a positive count; the "LevelZeroSubdevices" attribute is added before
  -- the array allocations are attempted
  let subBranch : Option Nat :=
    match o.subsFirst with
    | some (n + 1) => some (n + 1)
    | _ => none
  let subCountAttr : List (String × String) :=
    match subBranch with
    | some n => [("LevelZeroSubdevices", natDec n)]
    | none => []
  let subEnumCalls : List ApiCall :=
    match subBranch with
    | some _ =>
      if o.subAllocOk then [.zeDeviceGetSubDevices h, .zeDeviceGetSubDevices h]
      else [.zeDeviceGetSubDevices h]
    | none => [.zeDeviceGetSubDevices h]
  let subRun : DevEffects × Bool :=
    match subBranch with
    | some n =>
      if o.subAllocOk then
        subLoop w.query smm w.hideErrors zeidx j o.subHandles (List.range n) pr.warned
      else (DevEffects.empty, pr.warned)
    | none => (DevEffects.empty, pr.warned)
  -- arguments the memory collector receives (alloc failure degrades to 0)
  let nrSub : Nat :=
    match subBranch with
    | some n => if o.subAllocOk then n else 0
    | none => 0
  let subh : List Nat := if nrSub = 0 then [] else o.subHandles
  let mem := memory_get
    ⟨w.query, w.envCoreMem, h, pr.isIntegrated, nrSub, subh, nrSub ≠ 0⟩ g.mem
  let root : Node :=
    ⟨rootName zeidx,
     baseAttrs ++ pr.attrs ++ cq.1 ++ subCountAttr ++ emsFor .root mem.emissions⟩
  let subNodes : List Node :=
    (subRun.1.nodes.enum).map (fun nk =>
      { nk.2 with attrs := nk.2.attrs ++ emsFor (.sub nk.1) mem.emissions })
  (⟨pr.calls ++ cq.2 ++ subEnumCalls ++ subRun.1.calls ++ mem.calls ++
      [.zesDevicePciGetProperties h],
    [.props h true, .cq h] ++ subRun.1.collCalls ++ [.mem h nrSub subh],
    pr.typeMsgs ++ subRun.1.typeMsgs,
    pr.sysMsgs ++ subRun.1.sysMsgs,
    root :: subNodes⟩,
   ⟨subRun.2, mem.st⟩)

/-- The device loop of one driver, threading statics and the global `zeidx`
counter over the enumerated `(j, handle)` pairs. -/
def deviceLoop (w : World) (smm : Nat) (i : Nat) :
    List (Nat × Nat) → GState → Nat → DevEffects × GState × Nat
  | [], g, z => (DevEffects.empty, g, z)
  | (j, h) :: rest, g, z =>
    let r := processDevice w smm g i j z h
    let r2 := deviceLoop w smm i rest r.2 (z + 1)
    (r.1.app r2.1, r2.2.1, r2.2.2)

/-- Processing of one driver (the body of the `for(i...)` loop):
device enumeration (a driver with an error, zero devices, or a failed
allocation is skipped with `continue`). -/
def processDriver (w : World) (smm : Nat) (i : Nat) (dh : Nat) (g : GState)
    (zeidx : Nat) : DevEffects × GState × Nat :=
  let dro := w.drvQuery dh
  match dro.devsFirst with
  | none => (⟨[.zeDeviceGet dh], [], [], [], []⟩, g, zeidx)
  | some 0 => (⟨[.zeDeviceGet dh], [], [], [], []⟩, g, zeidx)
  | some (_ + 1) =>
    if dro.devAllocOk then
      match dro.devsSecond with
      | none => (⟨[.zeDeviceGet dh, .zeDeviceGet dh], [], [], [], []⟩, g, zeidx)
      | some hs =>
        let r := deviceLoop w smm i hs.enum g zeidx
        (DevEffects.app ⟨[.zeDeviceGet dh, .zeDeviceGet dh], [], [], [], []⟩ r.1,
         r.2.1, r.2.2)
    else (⟨[.zeDeviceGet dh], [], [], [], []⟩, g, zeidx)

/-- The driver loop over enumerated `(i, handle)` pairs. -/
def driverLoop (w : World) (smm : Nat) :
    List (Nat × Nat) → GState → Nat → DevEffects × GState
  | [], g, _ => (DevEffects.empty, g)
  | (i, dh) :: rest, g, z =>
    let r := processDriver w smm i dh g z
    let r2 := driverLoop w smm rest r.2.1 r.2.2
    (r.1.app r2.1, r2.2)

/-- Full effects of one `hwloc_levelzero_discover` call. -/
structure Effects where
  ret : Int
  envPut : Bool
  calls : List ApiCall
  collCalls : List CollCall
  typeMsgs : List String
  sysMsgs : List String
  initMsgs : List String
  nodes : List Node
deriving DecidableEq, Repr

def Effects.empty : Effects := ⟨0, false, [], [], [], [], [], []⟩

/-- Lift driver-level effects into full effects. -/
def Effects.ofDev (envPut : Bool) (pre : List ApiCall) (initMsgs : List String)
    (d : DevEffects) : Effects :=
  ⟨0, envPut, pre ++ d.calls, d.collCalls, d.typeMsgs, d.sysMsgs, initMsgs, d.nodes⟩

/-- `hwloc_levelzero_discover(backend, dstatus)`.  Returns the effects and
the updated process statics.  Every path returns 0. -/
def discover (w : World) (g : GState) : Effects × GState :=
  if w.filterKeepNone then
    -- OS-device filter is KEEP_NONE: return before any vendor call
    (Effects.empty, g)
  else
    let envPut := w.envZES.isNone
    let smm : Nat :=
      match w.envZES with
      | none => 1
      | some v => if v = 0 then 2 else 0
    if ¬w.zeInitOk then
      (Effects.ofDev envPut [.zeInit]
        (if w.hideErrors then [] else ["Failed to initialize LevelZero in ze_init()"])
        DevEffects.empty, g)
    else
      match w.drvFirst with
      | none => (Effects.ofDev envPut [.zeInit, .zeDriverGet] [] DevEffects.empty, g)
      | some 0 => (Effects.ofDev envPut [.zeInit, .zeDriverGet] [] DevEffects.empty, g)
      | some (_ + 1) =>
        if w.drvAllocOk then
          match w.drvSecond with
          | none =>
            (Effects.ofDev envPut [.zeInit, .zeDriverGet, .zeDriverGet] [] DevEffects.empty, g)
          | some dhs =>
            let r := driverLoop w smm dhs.enum g 0
            (Effects.ofDev envPut [.zeInit, .zeDriverGet, .zeDriverGet] [] r.1, r.2)
        else (Effects.ofDev envPut [.zeInit, .zeDriverGet] [] DevEffects.empty, g)

/-! ### Properties of the decimal renderer -/

/-- Big-endian decimal digits of `n` (empty for 0). -/
def decDigits (base n : Nat) : List Char := ((Nat.digits base n).map digitChar).reverse

theorem natStrAux_eq {base : Nat} (hb : 1 < base) :
    ∀ fuel n ds, n ≠ 0 → n ≤ fuel → natStrAux base fuel n ds = decDigits base n ++ ds := by
  intro fuel
  induction fuel with
  | zero => intro n ds hn hle; omega
  | succ fuel ih =>
    intro n ds hn hle
    have hpos : 0 < n := Nat.pos_of_ne_zero hn
    have hdig : Nat.digits base n = n % base :: Nat.digits base (n / base) :=
      Nat.digits_def' hb hpos
    by_cases hq : n / base = 0
    · simp [natStrAux, hq, decDigits, hdig]
    · have hlt : n / base < n := Nat.div_lt_self hpos hb
      have ihq := ih (n / base) (digitChar (n % base) :: ds) hq (by omega)
      simp [natStrAux, hq, ihq, decDigits, hdig]

theorem natDec_data {n : Nat} (hn : n ≠ 0) : (natDec n).data = decDigits 10 n := by
  unfold natDec
  rw [natStrAux_eq (by norm_num) (n + 1) n [] hn (by omega)]
  simp

theorem natDec_zero_data : (natDec 0).data = ['0'] := rfl

theorem digitChar_toNat {d : Nat} (h : d < 10) : (digitChar d).toNat = 48 + d := by
  interval_cases d <;> rfl

theorem digitChar_ne_dot {d : Nat} (h : d < 10) : digitChar d ≠ '.' := by
  interval_cases d <;> decide

theorem dot_not_mem_natDec (n : Nat) : ('.' : Char) ∉ (natDec n).data := by
  by_cases hn : n = 0
  · subst hn; decide
  · rw [natDec_data hn]
    unfold decDigits
    intro hmem
    rw [List.mem_reverse] at hmem
    obtain ⟨d, hd, hcd⟩ := List.mem_map.1 hmem
    exact digitChar_ne_dot (Nat.digits_lt_base (by norm_num) hd) hcd

theorem decDigits_inj {m n : Nat} (h : decDigits 10 m = decDigits 10 n) : m = n := by
  unfold decDigits at h
  have h1 : (Nat.digits 10 m).map digitChar = (Nat.digits 10 n).map digitChar := by
    have := congrArg List.reverse h
    simpa using this
  have key : ∀ k : Nat, (Nat.digits 10 k).map (Char.toNat ∘ digitChar) =
      (Nat.digits 10 k).map (fun d => 48 + d) := by
    intro k
    apply List.map_congr_left
    intro d hd
    exact digitChar_toNat (Nat.digits_lt_base (by norm_num) hd)
  have h3 := congrArg (List.map Char.toNat) h1
  rw [List.map_map, List.map_map, key m, key n] at h3
  have h4 : Nat.digits 10 m = Nat.digits 10 n :=
    List.map_injective_iff.2 (fun a b hab => by omega) h3
  exact Nat.digits_inj_iff.1 h4

theorem decDigits_singleton_zero {n : Nat} (h : decDigits 10 n = ['0']) : n = 0 := by
  unfold decDigits at h
  have h1 : (Nat.digits 10 n).map digitChar = ['0'] := by
    have := congrArg List.reverse h
    simpa using this
  cases hdl : Nat.digits 10 n with
  | nil => rw [hdl] at h1; simp at h1
  | cons d tl =>
    rw [hdl] at h1
    simp only [List.map_cons, List.cons.injEq] at h1
    obtain ⟨hd0, htl⟩ := h1
    have htl0 : tl = [] := List.map_eq_nil_iff.1 htl
    have hdlt : d < 10 :=
      Nat.digits_lt_base (by norm_num) (by rw [hdl]; exact List.mem_cons_self d tl)
    have hd : d = 0 := by
      have h48 := digitChar_toNat hdlt
      rw [hd0] at h48
      have h0 : ('0' : Char).toNat = 48 := rfl
      omega
    have hof := Nat.ofDigits_digits 10 n
    rw [hdl, htl0, hd] at hof
    simpa using hof.symm

theorem natDec_inj : Function.Injective natDec := by
  intro m n h
  have hd : (natDec m).data = (natDec n).data := congrArg String.data h
  by_cases hm : m = 0 <;> by_cases hn : n = 0
  · omega
  · exfalso
    rw [hm, natDec_zero_data, natDec_data hn] at hd
    exact hn (decDigits_singleton_zero hd.symm)
  · exfalso
    rw [hn, natDec_zero_data, natDec_data hm] at hd
    exact hm (decDigits_singleton_zero hd)
  · rw [natDec_data hm, natDec_data hn] at hd
    exact decDigits_inj hd

/-! ### Node-name disjointness -/

theorem sdata_append (a b : String) : (a ++ b).data = a.data ++ b.data := rfl

theorem rootName_data (z : Nat) : (rootName z).data = 'z' :: 'e' :: (natDec z).data := rfl

theorem subName_data (z k : Nat) :
    (subName z k).data = 'z' :: 'e' :: ((natDec z).data ++ '.' :: (natDec k).data) := by
  show (((("ze" : String) ++ natDec z) ++ ".") ++ natDec k).data = _
  rw [sdata_append, sdata_append, sdata_append]
  simp

theorem string_ext {a b : String} (h : a.data = b.data) : a = b := by
  cases a
  cases b
  exact congrArg String.mk h

theorem rootName_inj {z z' : Nat} (h : rootName z = rootName z') : z = z' := by
  have hd := congrArg String.data h
  rw [rootName_data, rootName_data] at hd
  have h2 : (natDec z).data = (natDec z').data := by simpa using hd
  exact natDec_inj (string_ext h2)

theorem rootName_ne_subName (z z' k : Nat) : rootName z ≠ subName z' k := by
  intro h
  have hd := congrArg String.data h
  rw [rootName_data, subName_data] at hd
  have h2 : (natDec z).data = (natDec z').data ++ '.' :: (natDec k).data := by simpa using hd
  have : ('.' : Char) ∈ (natDec z).data := by
    rw [h2]
    simp
  exact dot_not_mem_natDec z this

theorem split_at_dot :
    ∀ {a : List Char} {c b d : List Char}, a ++ '.' :: b = c ++ '.' :: d →
      ('.' : Char) ∉ a → ('.' : Char) ∉ c → a = c ∧ b = d := by
  intro a
  induction a with
  | nil =>
    intro c b d h ha hc
    cases c with
    | nil => simpa using h
    | cons y ys =>
      exfalso
      simp only [List.nil_append, List.cons_append, List.cons.injEq] at h
      exact hc (by rw [← h.1]; exact List.mem_cons_self _ _)
  | cons x xs ih =>
    intro c b d h ha hc
    cases c with
    | nil =>
      exfalso
      simp only [List.nil_append, List.cons_append, List.cons.injEq] at h
      exact ha (by rw [h.1]; exact List.mem_cons_self _ _)
    | cons y ys =>
      simp only [List.cons_append, List.cons.injEq] at h
      obtain ⟨hxy, hrest⟩ := h
      have hxa : ('.' : Char) ∉ xs := fun hm => ha (List.mem_cons_of_mem x hm)
      have hya : ('.' : Char) ∉ ys := fun hm => hc (List.mem_cons_of_mem y hm)
      obtain ⟨h1, h2⟩ := ih hrest hxa hya
      exact ⟨by rw [hxy, h1], h2⟩

theorem subName_inj {z z' k k' : Nat} (h : subName z k = subName z' k') : z = z' ∧ k = k' := by
  have hd := congrArg String.data h
  rw [subName_data, subName_data] at hd
  have h2 : (natDec z).data ++ '.' :: (natDec k).data =
      (natDec z').data ++ '.' :: (natDec k').data := by simpa using hd
  obtain ⟨ha, hb⟩ := split_at_dot h2 (dot_not_mem_natDec z) (dot_not_mem_natDec z')
  exact ⟨natDec_inj (string_ext ha), natDec_inj (string_ext hb)⟩

/-! ### Characterization of the sysman module loop -/

/-- Spec-side projection of the loop body: the immediate per-subdevice
attribute one module produces (if any). -/
def moduleSubEmission (nrOsdevs : Nat) (subsPresent : Bool) (m : MemModule) : Option Emission :=
  match m.props with
  | none => none
  | some p =>
    let sz := moduleSize m p
    match moduleTarget nrOsdevs subsPresent p with
    | none => none
    | some .root => none
    | some (.sub k) =>
      if sz = 0 then none
      else some (.sub k, "LevelZero" ++ memTypeString p.type ++ "Size", natDec (sz / 1024))

/-- Spec-side projection: one module's contribution to `totalHBMkB`. -/
def moduleHBMkB (m : MemModule) : Nat :=
  match m.props with
  | none => 0
  | some p => if p.type = .HBM then moduleSize m p / 1024 else 0

/-- Spec-side projection: one module's contribution to `totalDDRkB`. -/
def moduleDDRkB (m : MemModule) : Nat :=
  match m.props with
  | none => 0
  | some p => if isDDRFamily p.type then moduleSize m p / 1024 else 0

theorem sysmanStep_eq (nr : Nat) (sp : Bool) (hbm ddr : Nat) (ems : List Emission)
    (m : MemModule) :
    sysmanStep nr sp (hbm, ddr, ems) m =
      (hbm + moduleHBMkB m, ddr + moduleDDRkB m,
       ems ++ (moduleSubEmission nr sp m).toList) := by
  unfold sysmanStep moduleHBMkB moduleDDRkB moduleSubEmission
  cases hp : m.props with
  | none => simp
  | some p =>
    have hddr : p.type = ZesMemType.HBM → isDDRFamily p.type = false := by
      intro h
      rw [h]
      rfl
    cases htgt : moduleTarget nr sp p with
    | none =>
      by_cases hH : p.type = ZesMemType.HBM <;> by_cases hD : isDDRFamily p.type = true <;>
        simp_all
    | some t =>
      cases t with
      | root =>
        by_cases hH : p.type = ZesMemType.HBM <;> by_cases hD : isDDRFamily p.type = true <;>
          simp_all
      | sub k =>
        by_cases hsz : moduleSize m p = 0 <;>
          by_cases hH : p.type = ZesMemType.HBM <;> by_cases hD : isDDRFamily p.type = true <;>
            simp_all

theorem sysmanStep_fold (nr : Nat) (sp : Bool) :
    ∀ (ms : List MemModule) (hbm ddr : Nat) (ems : List Emission),
      ms.foldl (sysmanStep nr sp) (hbm, ddr, ems) =
        (hbm + (ms.map moduleHBMkB).sum, ddr + (ms.map moduleDDRkB).sum,
         ems ++ ms.filterMap (moduleSubEmission nr sp)) := by
  intro ms
  induction ms with
  | nil => simp
  | cons m tl ih =>
    intro hbm ddr ems
    rw [List.foldl_cons, sysmanStep_eq, ih]
    cases hse : moduleSubEmission nr sp m with
    | none => simp [List.filterMap_cons, hse, Nat.add_assoc]
    | some e => simp [List.filterMap_cons, hse, Nat.add_assoc]

/-- Full characterization of `hwloc__levelzero_memory_get_from_sysman` on
the path where both enumeration calls and the allocation succeed. -/
theorem sysman_run_eq (h n : Nat) (ms : List MemModule) (nr : Nat) (sp : Bool) :
    memory_get_from_sysman h ⟨some (n + 1), true, some ms⟩ nr sp =
      ⟨0, ms.filterMap (moduleSubEmission nr sp) ++
            rootAggEmissions ((ms.map moduleHBMkB).sum) ((ms.map moduleDDRkB).sum),
        (ms.map moduleHBMkB).sum, (ms.map moduleDDRkB).sum,
        [.zesDeviceEnumMemoryModules h, .zesDeviceEnumMemoryModules h] ++
          sysmanModuleCalls h ms⟩ := by
  have hfold := sysmanStep_fold nr sp ms 0 0 []
  simp [memory_get_from_sysman, hfold]

/-- The C return value of the sysman source is -1 exactly when the first
enumeration call fails. -/
theorem sysman_ret_iff (h : Nat) (o : MemSysOracle) (nr : Nat) (sp : Bool) :
    (memory_get_from_sysman h o nr sp).ret = 0 ↔ o.enum1 ≠ none := by
  unfold memory_get_from_sysman
  cases o.enum1 with
  | none => simp
  | some n =>
    cases n with
    | zero => simp
    | succ n =>
      by_cases ha : o.allocOk <;> cases he : o.enum2 <;> simp [ha, he]

/-! ### The once-per-process probe of hwloc__levelzero_memory_get -/

/-- Invariant after the first invocation (for a fixed environment value
`e`): either the first-use latch is cleared, or the decision variable is
set and the environment cannot reset it. -/
def probeInv (e : Option Int) (st : MemState) : Prop :=
  st.first = false ∨ (st.memory_from_coreapi ≠ -1 ∧ e = none)

theorem memory_get_dispatch_st (c : MemCall) (st : MemState) (p : Bool) :
    (memory_get_dispatch c st p).st = st ∧ (memory_get_dispatch c st p).probed = p := by
  unfold memory_get_dispatch
  split <;> exact ⟨rfl, rfl⟩

theorem memory_get_no_probe {c : MemCall} {st : MemState} {e : Option Int}
    (he : c.env = e) (hne : e ≠ some (-1)) (hinv : probeInv e st) :
    (memory_get c st).probed = false ∧
      (memory_get c st).st.memory_from_coreapi = st.memory_from_coreapi ∧
      probeInv e (memory_get c st).st := by
  unfold memory_get
  rcases hinv with hfirst | ⟨hmfc, henone⟩
  · rw [hfirst]
    simp only [Bool.false_eq_true, if_false]
    refine ⟨(memory_get_dispatch_st c st false).2, ?_, ?_⟩
    · rw [(memory_get_dispatch_st c st false).1]
    · exact Or.inl (by rw [(memory_get_dispatch_st c st false).1, hfirst])
  · subst henone
    rw [he]
    cases hf : st.first with
    | false =>
      simp only [Bool.false_eq_true, if_false]
      refine ⟨(memory_get_dispatch_st c st false).2, ?_, ?_⟩
      · rw [(memory_get_dispatch_st c st false).1]
      · exact Or.inl (by rw [(memory_get_dispatch_st c st false).1, hf])
    | true =>
      simp only [if_true, hmfc, if_false]
      refine ⟨(memory_get_dispatch_st c ⟨st.memory_from_coreapi, false⟩ false).2, ?_, ?_⟩
      · rw [(memory_get_dispatch_st c ⟨st.memory_from_coreapi, false⟩ false).1]
      · exact Or.inl (by rw [(memory_get_dispatch_st c ⟨st.memory_from_coreapi, false⟩ false).1])

theorem memory_get_establishes_inv {c : MemCall} {e : Option Int}
    (he : c.env = e) (hne : e ≠ some (-1)) :
    probeInv e (memory_get c initMemState).st := by
  unfold memory_get initMemState
  cases henv : c.env with
  | none =>
    subst he
    rw [henv]
    simp only [if_true]
    split
    · exact Or.inr ⟨by simp, henv ▸ rfl⟩
    · rename_i hret
      refine Or.inl ?_
      rw [(memory_get_dispatch_st c ⟨1, false⟩ true).1]
  | some v =>
    subst he
    rw [henv]
    simp only [if_true]
    have hv : v ≠ -1 := fun hv => hne (by rw [henv, hv])
    rw [if_neg hv]
    refine Or.inl ?_
    rw [(memory_get_dispatch_st c ⟨v, false⟩ false).1]

theorem memRun_no_probe {e : Option Int} (hne : e ≠ some (-1)) :
    ∀ (cs : List MemCall) (st : MemState), (∀ c ∈ cs, c.env = e) → probeInv e st →
      (memRun cs st).2 = 0 ∧
        (memRun cs st).1.memory_from_coreapi = st.memory_from_coreapi := by
  intro cs
  induction cs with
  | nil => intro st _ _; exact ⟨rfl, rfl⟩
  | cons c tl ih =>
    intro st henv hinv
    have hc := memory_get_no_probe (henv c (List.mem_cons_self _ _)) hne hinv
    obtain ⟨hr1, hr2⟩ := ih (memory_get c st).st
      (fun x hx => henv x (List.mem_cons_of_mem _ hx)) hc.2.2
    simp only [memRun]
    rw [hc.1]
    simp only [Bool.false_eq_true, if_false]
    exact ⟨by omega, by rw [hr2, hc.2.1]⟩

/-! ### The once-per-process sysman diagnostic -/

/-- The per-device inputs of one `hwloc__levelzero_properties_get` call. -/
structure PropInput where
  getProps : Option ZeDeviceProps
  zesProps : Option ZesDeviceProps
deriving DecidableEq, Repr

/-- Whether a `hwloc__levelzero_properties_get` call reaches and fails the
`zesDeviceGetProperties` query (subdevices skip it). -/
def sysmanQueriedFailed (i : PropInput) : Bool :=
  (match i.getProps with
   | some p => !p.flagSubdevice
   | none => true) && i.zesProps.isNone

/-- A sequence of `hwloc__levelzero_properties_get` calls threading the
`warned` static, collecting the sysman diagnostics. -/
def propWarnRun (smm : Nat) (hide : Bool) : List PropInput → Bool → List String × Bool
  | [], w => ([], w)
  | i :: is, w =>
    let r := properties_get 0 i.getProps i.zesProps smm hide w
    let rest := propWarnRun smm hide is r.warned
    (r.sysMsgs ++ rest.1, rest.2)

theorem properties_get_sysMsgs (h : Nat) (g : Option ZeDeviceProps)
    (z : Option ZesDeviceProps) (smm : Nat) (hide : Bool) (w : Bool) :
    (properties_get h g z smm hide w).sysMsgs =
      (if w then [] else
       if sysmanQueriedFailed ⟨g, z⟩ then sysmanFailMsg smm hide else []) ∧
    (properties_get h g z smm hide w).warned = (w || sysmanQueriedFailed ⟨g, z⟩) := by
  unfold properties_get sysmanQueriedFailed
  cases g with
  | none => cases z <;> cases w <;> simp
  | some p =>
    obtain ⟨ty, s1, s2, s3, s4, fs, fi⟩ := p
    cases fs <;> cases z <;> cases w <;> simp

theorem propWarnRun_eq (smm : Nat) (hide : Bool) :
    ∀ (is : List PropInput) (w : Bool),
      propWarnRun smm hide is w =
        ((if w then [] else
          if is.any sysmanQueriedFailed then sysmanFailMsg smm hide else []),
         w || is.any sysmanQueriedFailed) := by
  intro is
  induction is with
  | nil => intro w; cases w <;> simp [propWarnRun]
  | cons i tl ih =>
    intro w
    simp only [propWarnRun]
    obtain ⟨h1, h2⟩ := properties_get_sysMsgs 0 i.getProps i.zesProps smm hide w
    rw [h1, h2, ih]
    cases w <;> cases hf : sysmanQueriedFailed i <;>
      cases ha : tl.any sysmanQueriedFailed <;> simp [hf, ha]

theorem sysmanFailMsg_len (smm : Nat) (hide : Bool) : (sysmanFailMsg smm hide).length ≤ 1 := by
  unfold sysmanFailMsg
  split
  · simp
  split <;> simp

/-- Relation between the `warned` static before a code region, the sysman
diagnostics it prints, and the static after it: at most one message, none
if already warned, and printing sets the flag. -/
def WarnOk (w0 : Bool) (msgs : List String) (w1 : Bool) : Prop :=
  msgs.length ≤ 1 ∧ (w0 = true → msgs = []) ∧ (msgs ≠ [] → w1 = true) ∧
    (w0 = true → w1 = true)

theorem warnOk_nil (w : Bool) : WarnOk w [] w :=
  ⟨by simp, fun _ => rfl, fun h => absurd rfl h, fun h => h⟩

theorem warnOk_comp {w0 w1 w2 : Bool} {m1 m2 : List String}
    (a : WarnOk w0 m1 w1) (b : WarnOk w1 m2 w2) : WarnOk w0 (m1 ++ m2) w2 := by
  obtain ⟨l1, z1, n1, u1⟩ := a
  obtain ⟨l2, z2, n2, u2⟩ := b
  refine ⟨?_, ?_, ?_, fun h => u2 (u1 h)⟩
  · by_cases hm : m1 = []
    · subst hm; simpa using l2
    · rw [z2 (n1 hm)]
      simpa using l1
  · intro h0
    rw [z1 h0, z2 (u1 h0)]
    rfl
  · intro hne
    by_cases hm2 : m2 = []
    · subst hm2
      rw [List.append_nil] at hne
      exact u2 (n1 hne)
    · exact n2 hm2

theorem properties_get_warnOk (h : Nat) (g : Option ZeDeviceProps)
    (z : Option ZesDeviceProps) (smm : Nat) (hide : Bool) (w : Bool) :
    WarnOk w (properties_get h g z smm hide w).sysMsgs
      (properties_get h g z smm hide w).warned := by
  obtain ⟨h1, h2⟩ := properties_get_sysMsgs h g z smm hide w
  rw [h1, h2]
  cases w <;> cases hf : sysmanQueriedFailed ⟨g, z⟩ <;>
    exact ⟨by simp [sysmanFailMsg_len], by simp, by simp, by simp⟩

theorem subLoop_warnOk (q : Nat → DevOracle) (smm : Nat) (hide : Bool)
    (z j : Nat) (sh : List Nat) :
    ∀ (ks : List Nat) (w : Bool),
      WarnOk w (subLoop q smm hide z j sh ks w).1.sysMsgs
        (subLoop q smm hide z j sh ks w).2 := by
  intro ks
  induction ks with
  | nil => intro w; exact warnOk_nil w
  | cons k tl ih =>
    intro w
    simp only [subLoop]
    exact warnOk_comp (properties_get_warnOk _ _ _ smm hide w) (ih _)

theorem processDevice_warnOk (w : World) (smm : Nat) (g : GState) (i j z h : Nat) :
    WarnOk g.warned (processDevice w smm g i j z h).1.sysMsgs
      (processDevice w smm g i j z h).2.warned := by
  have hp := properties_get_warnOk h (w.query h).getProps (w.query h).zesProps smm
    w.hideErrors g.warned
  cases hsf : (w.query h).subsFirst with
  | none =>
    simpa [processDevice, hsf, DevEffects.empty] using
      warnOk_comp hp (warnOk_nil _)
  | some n =>
    cases n with
    | zero =>
      simpa [processDevice, hsf, DevEffects.empty] using warnOk_comp hp (warnOk_nil _)
    | succ n =>
      by_cases hao : (w.query h).subAllocOk
      · have hs := subLoop_warnOk w.query smm w.hideErrors z j (w.query h).subHandles
          (List.range (n + 1))
          (properties_get h (w.query h).getProps (w.query h).zesProps smm
            w.hideErrors g.warned).warned
        simpa [processDevice, hsf, hao] using warnOk_comp hp hs
      · simpa [processDevice, hsf, hao, DevEffects.empty] using warnOk_comp hp (warnOk_nil _)

theorem deviceLoop_warnOk (w : World) (smm : Nat) (i : Nat) :
    ∀ (ps : List (Nat × Nat)) (g : GState) (z : Nat),
      WarnOk g.warned (deviceLoop w smm i ps g z).1.sysMsgs
        (deviceLoop w smm i ps g z).2.1.warned := by
  intro ps
  induction ps with
  | nil => intro g z; exact warnOk_nil _
  | cons p tl ih =>
    intro g z
    obtain ⟨j, h⟩ := p
    simp only [deviceLoop]
    exact warnOk_comp (processDevice_warnOk w smm g i j z h)
      (ih (processDevice w smm g i j z h).2 (z + 1))

theorem processDriver_warnOk (w : World) (smm : Nat) (i dh : Nat) (g : GState) (z : Nat) :
    WarnOk g.warned (processDriver w smm i dh g z).1.sysMsgs
      (processDriver w smm i dh g z).2.1.warned := by
  cases hdf : (w.drvQuery dh).devsFirst with
  | none => simp only [processDriver, hdf]; exact warnOk_nil _
  | some n =>
    cases n with
    | zero => simp only [processDriver, hdf]; exact warnOk_nil _
    | succ n =>
      by_cases hao : (w.drvQuery dh).devAllocOk
      · cases hds : (w.drvQuery dh).devsSecond with
        | none =>
          simp only [processDriver, hdf, hds, hao, if_true]
          exact warnOk_nil _
        | some hs =>
          simp only [processDriver, hdf, hds, hao, if_true]
          simpa [DevEffects.app] using deviceLoop_warnOk w smm i hs.enum g z
      · simp only [processDriver, hdf, hao, Bool.false_eq_true, if_false]
        exact warnOk_nil _

theorem driverLoop_warnOk (w : World) (smm : Nat) :
    ∀ (ds : List (Nat × Nat)) (g : GState) (z : Nat),
      WarnOk g.warned (driverLoop w smm ds g z).1.sysMsgs
        (driverLoop w smm ds g z).2.warned := by
  intro ds
  induction ds with
  | nil => intro g z; exact warnOk_nil _
  | cons d tl ih =>
    intro g z
    obtain ⟨i, dh⟩ := d
    simp only [driverLoop]
    exact warnOk_comp (processDriver_warnOk w smm i dh g z)
      (ih (processDriver w smm i dh g z).2.1 (processDriver w smm i dh g z).2.2)

theorem discover_warnOk (w : World) (g : GState) :
    WarnOk g.warned (discover w g).1.sysMsgs (discover w g).2.warned := by
  by_cases hf : w.filterKeepNone
  · simp only [discover, hf, if_true]
    exact warnOk_nil _
  · by_cases hi : w.zeInitOk
    · cases hdf : w.drvFirst with
      | none =>
        simp only [discover, hf, hi, hdf, Bool.false_eq_true, if_false, not_true,
          Effects.ofDev, DevEffects.empty]
        exact warnOk_nil _
      | some n =>
        cases n with
        | zero =>
          simp only [discover, hf, hi, hdf, Bool.false_eq_true, if_false, not_true,
            Effects.ofDev, DevEffects.empty]
          exact warnOk_nil _
        | succ n =>
          by_cases hao : w.drvAllocOk
          · cases hds : w.drvSecond with
            | none =>
              simp only [discover, hf, hi, hdf, hds, hao, Bool.false_eq_true, if_false,
                not_true, if_true, Effects.ofDev, DevEffects.empty]
              exact warnOk_nil _
            | some dhs =>
              simp only [discover, hf, hi, hdf, hds, hao, Bool.false_eq_true, if_false,
                not_true, if_true, Effects.ofDev, DevEffects.empty]
              exact driverLoop_warnOk w _ dhs.enum g 0
          · simp only [discover, hf, hi, hdf, hao, Bool.false_eq_true, if_false,
              not_true, Effects.ofDev, DevEffects.empty]
            exact warnOk_nil _
    · simp only [discover, hf, hi, Bool.false_eq_true, if_false, not_false_iff, if_true,
        Effects.ofDev, DevEffects.empty]
      exact warnOk_nil _

/-! ### Names of the created nodes -/

/-- The number of subdevice nodes a device's processing emits: the
enumerated count when the branch is taken and the allocations succeed,
0 otherwise. -/
def subCount (w : World) (h : Nat) : Nat :=
  match (w.query h).subsFirst with
  | some (n + 1) => if (w.query h).subAllocOk then n + 1 else 0
  | _ => 0

/-- The names one device contributes: its root name followed by its
subdevice names. -/
def blockNames (z m : Nat) : List String :=
  rootName z :: (List.range m).map (subName z)

/-- Name blocks of a run of devices holding consecutive sequence numbers
starting at `z`. -/
def blockSeq (z : Nat) : List Nat → List (List String)
  | [] => []
  | m :: ms => blockNames z m :: blockSeq (z + 1) ms

/-- The `(j, handle)` pairs the device loop of one driver runs over. -/
def drvDevs (w : World) (dh : Nat) : List (Nat × Nat) :=
  match (w.drvQuery dh).devsFirst with
  | some (_ + 1) =>
    if (w.drvQuery dh).devAllocOk then
      match (w.drvQuery dh).devsSecond with
      | some hs => hs.enum
      | none => []
    else []
  | _ => []

/-- Subdevice-node counts of a run of devices. -/
def devCounts (w : World) (ps : List (Nat × Nat)) : List Nat :=
  ps.map (fun jh => subCount w jh.2)

/-- Subdevice-node counts across a run of drivers. -/
def drvCounts (w : World) : List (Nat × Nat) → List Nat
  | [] => []
  | d :: rest => devCounts w (drvDevs w d.2) ++ drvCounts w rest

/-- Subdevice-node counts of every device the whole discovery processes
(empty when discovery returns before the driver loop). -/
def allCounts (w : World) : List Nat :=
  if w.filterKeepNone then []
  else if ¬w.zeInitOk then []
  else
    match w.drvFirst with
    | some (_ + 1) =>
      if w.drvAllocOk then
        match w.drvSecond with
        | some dhs => drvCounts w dhs.enum
        | none => []
      else []
    | _ => []

theorem subLoop_names (q : Nat → DevOracle) (smm : Nat) (hide : Bool)
    (z j : Nat) (sh : List Nat) :
    ∀ (ks : List Nat) (w : Bool),
      (subLoop q smm hide z j sh ks w).1.nodes.map Node.name = ks.map (subName z) := by
  intro ks
  induction ks with
  | nil => intro w; rfl
  | cons k tl ih =>
    intro w
    simp only [subLoop, DevEffects.app, List.map_cons]
    simp [ih]

theorem map_name_enum_update (l : List Node) (f : Nat × Node → List (String × String)) :
    ((l.enum).map (fun nk => { nk.2 with attrs := f nk })).map Node.name = l.map Node.name := by
  rw [List.map_map]
  have h1 : (Node.name ∘ fun nk : Nat × Node => { nk.2 with attrs := f nk }) =
      (Node.name ∘ Prod.snd) := rfl
  rw [h1, ← List.map_map, List.enum_map_snd]

theorem processDevice_names (w : World) (smm : Nat) (g : GState) (i j z h : Nat) :
    (processDevice w smm g i j z h).1.nodes.map Node.name = blockNames z (subCount w h) := by
  cases hsf : (w.query h).subsFirst with
  | none => simp [processDevice, hsf, subCount, blockNames, DevEffects.empty]
  | some n =>
    cases n with
    | zero => simp [processDevice, hsf, subCount, blockNames, DevEffects.empty]
    | succ n =>
      by_cases hao : (w.query h).subAllocOk
      · simp only [processDevice, hsf, hao, if_true, List.map_cons]
        rw [map_name_enum_update]
        simp [subLoop_names, subCount, hsf, hao, blockNames]
      · simp [processDevice, hsf, hao, subCount, blockNames, DevEffects.empty]

theorem deviceLoop_names (w : World) (smm : Nat) (i : Nat) :
    ∀ (ps : List (Nat × Nat)) (g : GState) (z : Nat),
      (deviceLoop w smm i ps g z).1.nodes.map Node.name =
        (blockSeq z (devCounts w ps)).flatten ∧
      (deviceLoop w smm i ps g z).2.2 = z + ps.length := by
  intro ps
  induction ps with
  | nil => intro g z; exact ⟨rfl, rfl⟩
  | cons p tl ih =>
    intro g z
    obtain ⟨j, h⟩ := p
    obtain ⟨ih1, ih2⟩ := ih (processDevice w smm g i j z h).2 (z + 1)
    constructor
    · simp only [deviceLoop, DevEffects.app, devCounts, List.map_cons, blockSeq,
        List.flatten_cons, List.map_append]
      rw [processDevice_names, ih1]
      rfl
    · simp only [deviceLoop, ih2, List.length_cons]
      omega

theorem processDriver_names (w : World) (smm : Nat) (i dh : Nat) (g : GState) (z : Nat) :
    (processDriver w smm i dh g z).1.nodes.map Node.name =
      (blockSeq z (devCounts w (drvDevs w dh))).flatten ∧
    (processDriver w smm i dh g z).2.2 = z + (drvDevs w dh).length := by
  cases hdf : (w.drvQuery dh).devsFirst with
  | none => simp [processDriver, hdf, drvDevs, devCounts, blockSeq]
  | some n =>
    cases n with
    | zero => simp [processDriver, hdf, drvDevs, devCounts, blockSeq]
    | succ n =>
      by_cases hao : (w.drvQuery dh).devAllocOk
      · cases hds : (w.drvQuery dh).devsSecond with
        | none => simp [processDriver, hdf, hds, hao, drvDevs, devCounts, blockSeq]
        | some hs =>
          obtain ⟨h1, h2⟩ := deviceLoop_names w smm i hs.enum g z
          constructor
          · simp only [processDriver, hdf, hds, hao, if_true, DevEffects.app]
            simpa [drvDevs, hdf, hds, hao] using h1
          · simp only [processDriver, hdf, hds, hao, if_true]
            simpa [drvDevs, hdf, hds, hao] using h2
      · simp [processDriver, hdf, hao, drvDevs, devCounts, blockSeq]

theorem blockSeq_append (ms1 : List Nat) :
    ∀ (z : Nat) (ms2 : List Nat),
      blockSeq z (ms1 ++ ms2) = blockSeq z ms1 ++ blockSeq (z + ms1.length) ms2 := by
  induction ms1 with
  | nil => intro z ms2; simp [blockSeq]
  | cons m tl ih =>
    intro z ms2
    show blockNames z m :: blockSeq (z + 1) (tl ++ ms2) = _
    rw [ih (z + 1) ms2]
    simp only [blockSeq, List.length_cons, List.cons_append]
    have hz : z + 1 + tl.length = z + (tl.length + 1) := by omega
    rw [hz]

theorem driverLoop_names (w : World) (smm : Nat) :
    ∀ (ds : List (Nat × Nat)) (g : GState) (z : Nat),
      (driverLoop w smm ds g z).1.nodes.map Node.name =
        (blockSeq z (drvCounts w ds)).flatten := by
  intro ds
  induction ds with
  | nil => intro g z; rfl
  | cons d tl ih =>
    intro g z
    obtain ⟨i, dh⟩ := d
    obtain ⟨h1, h2⟩ := processDriver_names w smm i dh g z
    simp only [driverLoop, DevEffects.app, List.map_append, drvCounts, blockSeq_append,
      List.flatten_append]
    rw [h1, ih (processDriver w smm i dh g z).2.1 (processDriver w smm i dh g z).2.2, h2]
    have hlen : (devCounts w (drvDevs w dh)).length = (drvDevs w dh).length :=
      List.length_map _ _
    rw [hlen]

theorem discover_names (w : World) (g : GState) :
    (discover w g).1.nodes.map Node.name = (blockSeq 0 (allCounts w)).flatten := by
  by_cases hf : w.filterKeepNone
  · simp [discover, hf, Effects.empty, allCounts, blockSeq]
  · by_cases hi : w.zeInitOk
    · cases hdf : w.drvFirst with
      | none =>
        simp [discover, allCounts, hf, hi, hdf, Effects.ofDev, DevEffects.empty, blockSeq]
      | some n =>
        cases n with
        | zero =>
          simp [discover, allCounts, hf, hi, hdf, Effects.ofDev, DevEffects.empty, blockSeq]
        | succ n =>
          by_cases hao : w.drvAllocOk
          · cases hds : w.drvSecond with
            | none =>
              simp [discover, allCounts, hf, hi, hdf, hds, hao, Effects.ofDev,
                DevEffects.empty, blockSeq]
            | some dhs =>
              simp only [discover, allCounts, hf, hi, hdf, hds, hao, Bool.false_eq_true,
                if_false, if_true, not_true, Effects.ofDev, DevEffects.empty]
              exact driverLoop_names w _ dhs.enum g 0
          · simp [discover, allCounts, hf, hi, hdf, hao, Effects.ofDev, DevEffects.empty,
              blockSeq]
    · simp [discover, allCounts, hf, hi, Effects.ofDev, DevEffects.empty, blockSeq]

theorem blockNames_nodup (z m : Nat) : (blockNames z m).Nodup := by
  unfold blockNames
  rw [List.nodup_cons]
  constructor
  · intro hmem
    obtain ⟨k, _, hk⟩ := List.mem_map.1 hmem
    exact rootName_ne_subName z z k hk.symm
  · exact (List.nodup_range m).map (fun a b hab => (subName_inj hab).2)

theorem mem_blockNames {s : String} {z m : Nat} (h : s ∈ blockNames z m) :
    s = rootName z ∨ ∃ k, s = subName z k := by
  unfold blockNames at h
  rcases List.mem_cons.1 h with h | h
  · exact Or.inl h
  · obtain ⟨k, _, hk⟩ := List.mem_map.1 h
    exact Or.inr ⟨k, hk.symm⟩

theorem blockNames_disjoint {z z' m m' : Nat} (hne : z ≠ z') :
    List.Disjoint (blockNames z m) (blockNames z' m') := by
  intro s hs hs'
  rcases mem_blockNames hs with h1 | ⟨k, h1⟩ <;> rcases mem_blockNames hs' with h2 | ⟨k', h2⟩
  · exact hne (rootName_inj (h1.symm.trans h2))
  · exact rootName_ne_subName z z' k' (h1.symm.trans h2)
  · exact rootName_ne_subName z' z k (h2.symm.trans h1)
  · exact hne (subName_inj (h1.symm.trans h2)).1

theorem mem_blockSeq {b : List String} :
    ∀ {ms : List Nat} {z : Nat}, b ∈ blockSeq z ms → ∃ u m, z ≤ u ∧ b = blockNames u m := by
  intro ms
  induction ms with
  | nil => intro z h; simp [blockSeq] at h
  | cons m tl ih =>
    intro z h
    rcases List.mem_cons.1 h with h | h
    · exact ⟨z, m, Nat.le_refl z, h⟩
    · obtain ⟨u, mm, hu, hb⟩ := ih h
      exact ⟨u, mm, by omega, hb⟩

theorem blockSeq_pairwise : ∀ (ms : List Nat) (z : Nat),
    List.Pairwise List.Disjoint (blockSeq z ms) := by
  intro ms
  induction ms with
  | nil => intro z; exact List.Pairwise.nil
  | cons m tl ih =>
    intro z
    refine List.Pairwise.cons ?_ (ih (z + 1))
    intro b hb
    obtain ⟨u, mm, hu, rfl⟩ := mem_blockSeq hb
    exact blockNames_disjoint (by omega)

theorem blockSeq_flatten_nodup (ms : List Nat) (z : Nat) : (blockSeq z ms).flatten.Nodup := by
  rw [List.nodup_flatten]
  refine ⟨?_, blockSeq_pairwise ms z⟩
  intro b hb
  obtain ⟨u, mm, _, rfl⟩ := mem_blockSeq hb
  exact blockNames_nodup u mm

/-- A root-device name: contains no dot (subdevice names always do). -/
def isRootName (s : String) : Bool := decide (('.' : Char) ∉ s.data)

theorem isRootName_rootName (z : Nat) : isRootName (rootName z) = true := by
  unfold isRootName
  rw [decide_eq_true_iff, rootName_data]
  intro h
  rcases List.mem_cons.1 h with h | h
  · exact absurd h (by decide)
  rcases List.mem_cons.1 h with h | h
  · exact absurd h (by decide)
  · exact dot_not_mem_natDec z h

theorem isRootName_subName (z k : Nat) : isRootName (subName z k) = false := by
  have hmem : ('.' : Char) ∈ (subName z k).data := by
    rw [subName_data]
    simp
  simp [isRootName, hmem]

theorem filter_blockNames (z m : Nat) : (blockNames z m).filter isRootName = [rootName z] := by
  unfold blockNames
  rw [List.filter_cons_of_pos (isRootName_rootName z)]
  have hnil : ((List.range m).map (subName z)).filter isRootName = [] := by
    refine List.filter_eq_nil_iff.2 ?_
    intro s hs
    obtain ⟨k, _, hk⟩ := List.mem_map.1 hs
    simp [← hk, isRootName_subName]
  rw [hnil]

theorem filter_blockSeq : ∀ (ms : List Nat) (z : Nat),
    (blockSeq z ms).flatten.filter isRootName = (List.range' z ms.length).map rootName := by
  intro ms
  induction ms with
  | nil => intro z; rfl
  | cons m tl ih =>
    intro z
    simp only [blockSeq, List.flatten_cons, List.filter_append, filter_blockNames,
      ih (z + 1), List.length_cons]
    rfl

/-- Every path of `hwloc_levelzero_discover` returns 0. -/
theorem discover_ret (w : World) (g : GState) : (discover w g).1.ret = 0 := by
  by_cases hf : w.filterKeepNone
  · simp [discover, hf, Effects.empty]
  · by_cases hi : w.zeInitOk
    · cases hdf : w.drvFirst with
      | none => simp [discover, hf, hi, hdf, Effects.ofDev]
      | some n =>
        cases n with
        | zero => simp [discover, hf, hi, hdf, Effects.ofDev]
        | succ n =>
          by_cases hao : w.drvAllocOk
          · cases hds : w.drvSecond with
            | none => simp [discover, hf, hi, hdf, hds, hao, Effects.ofDev]
            | some dhs => simp [discover, hf, hi, hdf, hds, hao, Effects.ofDev]
          · simp [discover, hf, hi, hdf, hao, Effects.ofDev]
    · simp [discover, hf, hi, Effects.ofDev]

/-! ### Concrete fixtures -/

def dummyNode : Node := ⟨"", []⟩

/-- Sysman memory enumeration succeeding with zero modules. -/
def sysOkEmpty : MemSysOracle := ⟨some 0, true, none⟩

/-- Sysman memory enumeration failing its first call. -/
def sysErr : MemSysOracle := ⟨none, true, none⟩

/-- Coreapi memory enumeration succeeding with zero domains. -/
def coreEmpty : MemCoreOracle := ⟨some 0, true, none⟩

/-- A plain GPU device: basic properties succeed, sysman properties fail,
no queue groups, no subdevices, no memory modules. -/
def baseOracle : DevOracle :=
  ⟨some ⟨.GPU, 1, 1, 1, 1, false, false⟩, none, some 0, true, none,
   sysOkEmpty, coreEmpty, none, true, [], true⟩

/-- One driver (handle 100) with the given device handles. -/
def oneDriverWorld (devs : List Nat) (q : Nat → DevOracle) : World :=
  ⟨false, some 5, none, false, true, some 1, true, some [100],
   fun _ => ⟨some devs.length, true, some devs⟩, q⟩

/-! ### C1 -/

/-- The root device (handle 0) has two subdevices with handles 10 and 11. -/
def c1World : World :=
  oneDriverWorld [0]
    (fun h => if h = 0 then
        { baseOracle with subsFirst := some 2, subHandles := [10, 11] }
      else baseOracle)

/-- **C1.**  The claim says the PropertyCollector is invoked on the k-th
subdevice handle.  The code invokes it on `subh[j]` (the device loop index)
instead: with device `j = 0` owning subdevices with handles 10 and 11, the
subdevice loop queries properties of handle 10 twice and never of handle
11, while the CommandQueueGroupCollector correctly visits 10 then 11.
This exhibits the divergence (a `j`/`k` index slip in the C source). -/
theorem c1_property_collector_handle_bug :
    (discover c1World initGState).1.collCalls =
      [.props 0 true, .cq 0, .props 10 false, .cq 10, .props 10 false, .cq 11,
       .mem 0 2 [10, 11]] ∧
    CollCall.props 11 false ∉ (discover c1World initGState).1.collCalls ∧
    ApiCall.zeDeviceGetProperties 11 ∉ (discover c1World initGState).1.calls ∧
    ApiCall.zeDeviceGetCommandQueueGroupProperties 11 ∈
      (discover c1World initGState).1.calls := by
  decide

/-! ### C2 -/

/-- Two devices (handles 0 and 1) whose sysman property query fails while
`ZES_ENABLE_SYSMAN` was set to a nonzero value early (unknown cause,
`sysman_maybe_missing = 0`), errors not hidden. -/
def c2World : World := oneDriverWorld [0, 1] (fun _ => baseOracle)

/-- **C2, counterexample.**  Two devices fail the extended-property query
in one process with errors unhidden, yet *zero* diagnostics are emitted
(the claim says exactly one is): for the unknown cause the code prints
nothing, though it still consumes the once-flag. -/
theorem c2_unknown_cause_counterexample :
    c2World.hideErrors = false ∧
    (c2World.query 0).zesProps = none ∧ (c2World.query 1).zesProps = none ∧
    ApiCall.zesDeviceGetProperties 0 ∈ (discover c2World initGState).1.calls ∧
    ApiCall.zesDeviceGetProperties 1 ∈ (discover c2World initGState).1.calls ∧
    (discover c2World initGState).1.sysMsgs = [] ∧
    (discover c2World initGState).2.warned = true := by
  decide

/-- **C2, amended.**  The extended-property-failure diagnostic is emitted
at most once per process (zero times once `warned` is set); over any
sequence of PropertyCollector calls, the emitted diagnostics are exactly
one message when some non-subdevice call fails and the cause is
"requested too late" (1) or "explicitly disabled" (2) with errors
unhidden — and no message at all for an unknown cause. -/
theorem c2_sysman_diag_at_most_once :
    (∀ (w : World) (g : GState),
      (discover w g).1.sysMsgs.length ≤ (if g.warned then 0 else 1)) ∧
    (∀ (smm : Nat) (hide : Bool) (inputs : List PropInput),
      propWarnRun smm hide inputs false =
        ((if inputs.any sysmanQueriedFailed then sysmanFailMsg smm hide else []),
         inputs.any sysmanQueriedFailed)) ∧
    sysmanFailMsg 1 false =
      ["hwloc/levelzero: zesDeviceGetProperties() failed (ZES_ENABLE_SYSMAN=1 set too late?)."] ∧
    sysmanFailMsg 2 false =
      ["hwloc/levelzero: zesDeviceGetProperties() failed (ZES_ENABLE_SYSMAN=0)."] ∧
    sysmanFailMsg 0 false = [] := by
  refine ⟨?_, ?_, rfl, rfl, rfl⟩
  · intro w g
    have h := discover_warnOk w g
    cases hw : g.warned with
    | true =>
      have hnil : (discover w g).1.sysMsgs = [] := h.2.1 hw
      simp [hnil]
    | false =>
      simpa [hw] using h.1
  · intro smm hide inputs
    simpa using propWarnRun_eq smm hide inputs false

/-! ### C3 -/

/-- **C3.**  A module whose on-subdevice flag is set but whose subdevice
index is out of range produces no per-node attribute (its target is NULL),
yet its size still lands in the root aggregate totals: the run's emissions
are exactly the other modules' per-subdevice attributes followed by the
root aggregates, and the totals include the out-of-range module's
kilobytes. -/
theorem c3_out_of_range_module_counted (pre post : List MemModule) (h nr k s : Nat)
    (sp : Bool) (t : ZesMemType) (hk : nr ≤ k) (hs : s ≠ 0) :
    moduleSubEmission nr sp ⟨some ⟨s, true, k, t⟩, none⟩ = none ∧
    (memory_get_from_sysman h
        ⟨some (pre.length + post.length + 1), true,
         some (pre ++ ⟨some ⟨s, true, k, t⟩, none⟩ :: post)⟩ nr sp).emissions =
      (pre ++ post).filterMap (moduleSubEmission nr sp) ++
        rootAggEmissions
          ((memory_get_from_sysman h
              ⟨some (pre.length + post.length + 1), true,
               some (pre ++ ⟨some ⟨s, true, k, t⟩, none⟩ :: post)⟩ nr sp).totalHBMkB)
          ((memory_get_from_sysman h
              ⟨some (pre.length + post.length + 1), true,
               some (pre ++ ⟨some ⟨s, true, k, t⟩, none⟩ :: post)⟩ nr sp).totalDDRkB) ∧
    (memory_get_from_sysman h
        ⟨some (pre.length + post.length + 1), true,
         some (pre ++ ⟨some ⟨s, true, k, t⟩, none⟩ :: post)⟩ nr sp).totalHBMkB =
      ((pre ++ post).map moduleHBMkB).sum + (if t = .HBM then s / 1024 else 0) ∧
    (memory_get_from_sysman h
        ⟨some (pre.length + post.length + 1), true,
         some (pre ++ ⟨some ⟨s, true, k, t⟩, none⟩ :: post)⟩ nr sp).totalDDRkB =
      ((pre ++ post).map moduleDDRkB).sum + (if isDDRFamily t then s / 1024 else 0) := by
  have hsub : moduleSubEmission nr sp ⟨some ⟨s, true, k, t⟩, none⟩ = none := by
    unfold moduleSubEmission moduleTarget
    simp [hk]
  have hrun := sysman_run_eq h (pre.length + post.length)
    (pre ++ ⟨some ⟨s, true, k, t⟩, none⟩ :: post) nr sp
  have hsz : moduleSize ⟨some ⟨s, true, k, t⟩, none⟩ ⟨s, true, k, t⟩ = s := by
    unfold moduleSize
    simp [hs]
  have hH : moduleHBMkB ⟨some ⟨s, true, k, t⟩, none⟩ =
      (if t = .HBM then s / 1024 else 0) := by
    simp [moduleHBMkB, hsz]
  have hD : moduleDDRkB ⟨some ⟨s, true, k, t⟩, none⟩ =
      (if isDDRFamily t then s / 1024 else 0) := by
    by_cases hd : isDDRFamily t <;> simp [moduleDDRkB, hsz, hd]
  refine ⟨hsub, ?_, ?_, ?_⟩
  · rw [hrun]
    simp [List.filterMap_append, List.filterMap_cons, hsub]
  · rw [hrun]
    simp only [List.map_append, List.map_cons, List.sum_append, List.sum_cons, hH]
    by_cases ht : t = ZesMemType.HBM <;> (simp [ht]; try omega)
  · rw [hrun]
    simp only [List.map_append, List.map_cons, List.sum_append, List.sum_cons, hD]
    by_cases hd : isDDRFamily t <;> (simp [hd]; try omega)

/-- **C3, witness** at `subdeviceId = 5` with 2 subdevice nodes and a
2048-byte HBM module. -/
theorem c3_out_of_range_witness :
    2 ≤ 5 ∧ (2048 : Nat) ≠ 0 ∧
    (moduleSubEmission 2 true ⟨some ⟨2048, true, 5, .HBM⟩, none⟩ = none ∧
     (memory_get_from_sysman 0
         ⟨some ((List.nil (α := MemModule)).length + (List.nil (α := MemModule)).length + 1),
          true, some ([] ++ ⟨some ⟨2048, true, 5, .HBM⟩, none⟩ :: [])⟩ 2 true).emissions =
       ([] ++ []).filterMap (moduleSubEmission 2 true) ++
         rootAggEmissions
           ((memory_get_from_sysman 0
               ⟨some ((List.nil (α := MemModule)).length + (List.nil (α := MemModule)).length + 1),
                true, some ([] ++ ⟨some ⟨2048, true, 5, .HBM⟩, none⟩ :: [])⟩ 2 true).totalHBMkB)
           ((memory_get_from_sysman 0
               ⟨some ((List.nil (α := MemModule)).length + (List.nil (α := MemModule)).length + 1),
                true, some ([] ++ ⟨some ⟨2048, true, 5, .HBM⟩, none⟩ :: [])⟩ 2 true).totalDDRkB) ∧
     (memory_get_from_sysman 0
         ⟨some ((List.nil (α := MemModule)).length + (List.nil (α := MemModule)).length + 1),
          true, some ([] ++ ⟨some ⟨2048, true, 5, .HBM⟩, none⟩ :: [])⟩ 2 true).totalHBMkB =
       (([] ++ []).map moduleHBMkB).sum + (if ZesMemType.HBM = ZesMemType.HBM then 2048 / 1024 else 0) ∧
     (memory_get_from_sysman 0
         ⟨some ((List.nil (α := MemModule)).length + (List.nil (α := MemModule)).length + 1),
          true, some ([] ++ ⟨some ⟨2048, true, 5, .HBM⟩, none⟩ :: [])⟩ 2 true).totalDDRkB =
       (([] ++ []).map moduleDDRkB).sum + (if isDDRFamily ZesMemType.HBM then 2048 / 1024 else 0)) :=
  ⟨by decide, by decide,
   c3_out_of_range_module_counted [] [] 0 2 5 2048 true .HBM (by decide) (by decide)⟩

/-! ### C4 -/

/-- **C4, counterexample.**  With `HWLOC_L0_COREAPI_MEMORY=-1` (the
explicit "automatic" sentinel), a successful detailed probe returns before
clearing the first-use latch, so a second invocation re-reads the
environment, resets the decision to -1 and re-runs the probe; if that
second probe fails the committed decision even flips from Detailed (0) to
Basic (1).  Two invocations, two probes. -/
theorem c4_env_auto_reprobe_counterexample :
    (memory_get ⟨fun _ => baseOracle, some (-1), 0, false, 0, [], false⟩
        initMemState).st.memory_from_coreapi = 0 ∧
    memRun
      [⟨fun _ => baseOracle, some (-1), 0, false, 0, [], false⟩,
       ⟨fun _ => { baseOracle with memSys := sysErr }, some (-1), 0, false, 0, [], false⟩]
      initMemState = (⟨1, false⟩, 2) := by
  decide

/-- **C4, amended.**  Unless the memory-source override is explicitly set
to -1, the detailed-vs-basic probe runs at most once across any sequence
of collector invocations in one process, and the decision committed by the
first invocation persists for the rest of the process. -/
theorem c4_probe_at_most_once (c : MemCall) (cs : List MemCall) (e : Option Int)
    (henv : ∀ x ∈ c :: cs, x.env = e) (hne : e ≠ some (-1)) :
    (memRun (c :: cs) initMemState).2 ≤ 1 ∧
    (memRun (c :: cs) initMemState).1.memory_from_coreapi =
      (memory_get c initMemState).st.memory_from_coreapi := by
  have hinv := memory_get_establishes_inv (henv c (List.mem_cons_self _ _)) hne
  obtain ⟨h0, h1⟩ := memRun_no_probe hne cs (memory_get c initMemState).st
    (fun x hx => henv x (List.mem_cons_of_mem _ hx)) hinv
  constructor
  · simp only [memRun]
    rw [h0]
    split <;> omega
  · simp only [memRun]
    exact h1

/-- **C4, witness**: one invocation with the override unset. -/
theorem c4_probe_witness :
    (∀ x ∈ [(⟨fun _ => baseOracle, none, 0, false, 0, [], false⟩ : MemCall)],
       x.env = (none : Option Int)) ∧
    (none : Option Int) ≠ some (-1) ∧
    ((memRun [(⟨fun _ => baseOracle, none, 0, false, 0, [], false⟩ : MemCall)]
        initMemState).2 ≤ 1 ∧
     (memRun [(⟨fun _ => baseOracle, none, 0, false, 0, [], false⟩ : MemCall)]
        initMemState).1.memory_from_coreapi =
       (memory_get (⟨fun _ => baseOracle, none, 0, false, 0, [], false⟩ : MemCall)
          initMemState).st.memory_from_coreapi) :=
  ⟨fun x hx => by
      rcases List.mem_singleton.1 hx with rfl
      rfl,
   by simp,
   c4_probe_at_most_once _ []  none
     (fun x hx => by
       rcases List.mem_singleton.1 hx with rfl
       rfl)
     (by simp)⟩

/-! ### C5 -/

/-- One driver, one device (handle 0), zero subdevices; the detailed
source reports a single HBM module of 17179869184 bytes not on a
subdevice. -/
def c5World : World :=
  oneDriverWorld [0]
    (fun _ => { baseOracle with
      memSys := ⟨some 1, true, some [⟨some ⟨17179869184, false, 0, .HBM⟩, none⟩]⟩ })

/-- **C5.**  One HBM module of 17179869184 bytes not attributed to a
subdevice: the only attribute emitted is the root HBM aggregate with the
string value "16777216" (kilobytes); in general the sysman source emits
the per-subdevice attributes first and the root aggregates only after all
modules, and a zero aggregate is never emitted. -/
theorem c5_hbm_aggregate_after_all_modules :
    memory_get_from_sysman 0
        ⟨some 1, true, some [⟨some ⟨17179869184, false, 0, .HBM⟩, none⟩]⟩ 0 false =
      ⟨0, [(Target.root, "LevelZeroHBMSize", "16777216")], 16777216, 0,
       [.zesDeviceEnumMemoryModules 0, .zesDeviceEnumMemoryModules 0,
        .zesMemoryGetProperties 0 0]⟩ ∧
    (discover c5World initGState).1.nodes =
      [⟨"ze0",
        [("Backend", "LevelZero"),
         ("LevelZeroDriverIndex", "0"),
         ("LevelZeroDriverDeviceIndex", "0"),
         ("LevelZeroDeviceType", "GPU"),
         ("LevelZeroNumSlices", "1"),
         ("LevelZeroNumSubslicesPerSlice", "1"),
         ("LevelZeroNumEUsPerSubslice", "1"),
         ("LevelZeroNumThreadsPerEU", "1"),
         ("LevelZeroHBMSize", "16777216")]⟩] ∧
    (∀ (h n nr : Nat) (sp : Bool) (ms : List MemModule),
      (memory_get_from_sysman h ⟨some (n + 1), true, some ms⟩ nr sp).emissions =
        ms.filterMap (moduleSubEmission nr sp) ++
          rootAggEmissions ((ms.map moduleHBMkB).sum) ((ms.map moduleDDRkB).sum)) ∧
    (∀ (d : Nat) (v : String), (Target.root, "LevelZeroHBMSize", v) ∉ rootAggEmissions 0 d) ∧
    (∀ (hb : Nat) (v : String), (Target.root, "LevelZeroDDRSize", v) ∉ rootAggEmissions hb 0) := by
  refine ⟨by decide, by decide, ?_, ?_, ?_⟩
  · intro h n nr sp ms
    rw [sysman_run_eq]
  · intro d v
    unfold rootAggEmissions
    by_cases hd : d ≠ 0 <;> simp [hd]
  · intro hb v
    unfold rootAggEmissions
    by_cases hh : hb ≠ 0 <;> simp [hh]

/-! ### C6 -/

/-- **C6.**  With the basic (coreapi) source active
(`memory_from_coreapi = v > 0`) on integrated silicon, a nonzero-size
domain literally named "DDR" yields no attribute — unless the override
value is 2, which forces its inclusion. -/
theorem c6_integrated_ddr_gate (q : Nat → DevOracle) (e : Option Int) (h : Nat)
    (v : Int) (s : Nat) (hv : 0 < v) (hs : s ≠ 0)
    (hc : (q h).memCore = ⟨some 1, true, some [⟨"DDR", s⟩]⟩) :
    (memory_get ⟨q, e, h, true, 0, [], false⟩ ⟨v, false⟩).emissions =
      (if v = 2 then [(Target.root, "LevelZeroDDRSize", natDec (s / 1024))] else []) := by
  by_cases hv2 : v = 2 <;>
    simp [memory_get, memory_get_dispatch, memory_get_from_coreapi, coreapiDomainAttr,
      hc, hs, hv, hv2]

/-- **C6, witness** at override value 2 and a 2048-byte "DDR" domain. -/
theorem c6_integrated_ddr_witness :
    (0 : Int) < 2 ∧ (2048 : Nat) ≠ 0 ∧
    ((fun _ : Nat => { baseOracle with memCore := ⟨some 1, true, some [⟨"DDR", 2048⟩]⟩ }) 0).memCore =
      ⟨some 1, true, some [⟨"DDR", 2048⟩]⟩ ∧
    (memory_get
        ⟨fun _ => { baseOracle with memCore := ⟨some 1, true, some [⟨"DDR", 2048⟩]⟩ },
         none, 0, true, 0, [], false⟩ ⟨2, false⟩).emissions =
      (if (2 : Int) = 2 then [(Target.root, "LevelZeroDDRSize", natDec (2048 / 1024))] else []) :=
  ⟨by decide, by decide, rfl,
   c6_integrated_ddr_gate _ none 0 2 2048 (by decide) (by decide) rfl⟩

/-! ### C7 -/

/-- **C7, amended.**  When the subdevice-array allocation fails, the
device yields only its root node, the memory collector is invoked with
zero subdevices, and discovery continues to every remaining device of
every driver (one root node per enumerated device, return value 0) — but,
against the claim's "no attributes reflecting subdevices", the root node
keeps the "LevelZeroSubdevices" count attribute recorded before the
allocation attempt. -/
theorem c7_alloc_failure_degrades (w : World) (smm : Nat) (g : GState) (i j z h n : Nat)
    (hsf : (w.query h).subsFirst = some (n + 1))
    (hao : (w.query h).subAllocOk = false) :
    ((processDevice w smm g i j z h).1.nodes.map Node.name = [rootName z] ∧
     (processDevice w smm g i j z h).1.collCalls =
       [.props h true, .cq h, .mem h 0 []] ∧
     ("LevelZeroSubdevices", natDec (n + 1)) ∈
       ((processDevice w smm g i j z h).1.nodes.headD dummyNode).attrs) ∧
    (∀ (w' : World) (g' : GState),
      (discover w' g').1.ret = 0 ∧
      (((discover w' g').1.nodes.map Node.name).filter isRootName).length =
        (allCounts w').length) := by
  refine ⟨⟨?_, ?_, ?_⟩, ?_⟩
  · rw [processDevice_names]
    simp [subCount, hsf, hao, blockNames]
  · simp [processDevice, hsf, hao, DevEffects.empty]
  · simp [processDevice, hsf, hao, dummyNode, DevEffects.empty]
  · intro w' g'
    refine ⟨discover_ret w' g', ?_⟩
    rw [discover_names, filter_blockSeq]
    simp

/-- Root device (handle 0) reporting 2 subdevices whose arrays fail to
allocate. -/
def c7World : World :=
  oneDriverWorld [0]
    (fun h => if h = 0 then
        { baseOracle with subsFirst := some 2, subAllocOk := false, subHandles := [10, 11] }
      else baseOracle)

/-- Same world except the device truly reports no subdevices. -/
def c7WorldZero : World := oneDriverWorld [0] (fun _ => baseOracle)

/-- **C7, counterexample.**  The claim says an allocation-failure device is
treated *exactly* as if it had zero subdevices, with no attributes
reflecting subdevices.  In fact the root node keeps the
"LevelZeroSubdevices" = "2" attribute (added before the allocation), which
a genuinely zero-subdevice run never has. -/
theorem c7_subdevices_attr_counterexample :
    (c7World.query 0).subAllocOk = false ∧
    (discover c7World initGState).1.nodes.length = 1 ∧
    ("LevelZeroSubdevices", "2") ∈
      ((discover c7World initGState).1.nodes.headD dummyNode).attrs ∧
    ("LevelZeroSubdevices", "2") ∉
      ((discover c7WorldZero initGState).1.nodes.headD dummyNode).attrs := by
  decide

/-- **C7, witness** for the amended statement. -/
theorem c7_alloc_failure_witness :
    (c7World.query 0).subsFirst = some (1 + 1) ∧
    (c7World.query 0).subAllocOk = false ∧
    (((processDevice c7World 0 initGState 0 0 0 0).1.nodes.map Node.name = [rootName 0] ∧
      (processDevice c7World 0 initGState 0 0 0 0).1.collCalls =
        [.props 0 true, .cq 0, .mem 0 0 []] ∧
      ("LevelZeroSubdevices", natDec (1 + 1)) ∈
        ((processDevice c7World 0 initGState 0 0 0 0).1.nodes.headD dummyNode).attrs) ∧
     (∀ (w' : World) (g' : GState),
       (discover w' g').1.ret = 0 ∧
       (((discover w' g').1.nodes.map Node.name).filter isRootName).length =
         (allCounts w').length)) :=
  ⟨by decide, by decide,
   c7_alloc_failure_degrades c7World 0 initGState 0 0 0 0 1 (by decide) (by decide)⟩

/-! ### C8 -/

/-- **C8.**  When the OS-device type filter is KEEP_NONE, discover returns
0 immediately: no vendor call, no environment write, no diagnostic, no
node, and the process statics unchanged. -/
theorem c8_filter_keep_none_no_effects (w : World) (g : GState)
    (hf : w.filterKeepNone = true) :
    discover w g = (⟨0, false, [], [], [], [], [], []⟩, g) := by
  unfold discover
  rw [if_pos hf]
  rfl

/-- A world with the filter excluding OS devices (and plenty of devices
behind it that must not be touched). -/
def c8World : World :=
  ⟨true, none, none, false, true, some 1, true, some [100],
   fun _ => ⟨some 1, true, some [0]⟩, fun _ => baseOracle⟩

/-- **C8, witness.** -/
theorem c8_filter_witness :
    c8World.filterKeepNone = true ∧
    discover c8World initGState = (⟨0, false, [], [], [], [], [], []⟩, initGState) :=
  ⟨rfl, c8_filter_keep_none_no_effects c8World initGState rfl⟩

/-! ### C9 -/

/-- **C9.**  In any discovery run the root-device names are exactly
`ze0, ze1, ...` in creation order — the sequence number increases by one
per device across all drivers and is never reset — and the names of all
created nodes (roots and subdevices together) are pairwise distinct. -/
theorem c9_sequence_monotone_names_unique (w : World) (g : GState) :
    ((discover w g).1.nodes.map Node.name).filter isRootName =
      (List.range
        ((((discover w g).1.nodes.map Node.name).filter isRootName).length)).map rootName ∧
    ((discover w g).1.nodes.map Node.name).Nodup := by
  constructor
  · rw [discover_names, filter_blockSeq]
    rw [List.length_map, List.length_range', List.range_eq_range']
  · rw [discover_names]
    exact blockSeq_flatten_nodup _ _

/-! ### C10 -/

/-- **C10.**  With the override unset, the first memory-collector call
probes the detailed source and commits to Basic (1) exactly when the
*first* module-enumeration call errors; any success of that first call —
regardless of later allocation failures, second-call errors or per-module
query errors — commits to Detailed (0), and the committed value persists
over subsequent calls. -/
theorem c10_basic_iff_first_enum_error (c : MemCall) (hc : c.env = none) :
    ((memory_get c initMemState).st.memory_from_coreapi = 1 ↔
      (c.query c.h).memSys.enum1 = none) ∧
    ((c.query c.h).memSys.enum1 ≠ none →
      (memory_get c initMemState).st.memory_from_coreapi = 0) ∧
    (memory_get c initMemState).probed = true ∧
    (∀ c2 : MemCall, c2.env = none →
      (memory_get c2 (memory_get c initMemState).st).st.memory_from_coreapi =
        (memory_get c initMemState).st.memory_from_coreapi) := by
  have hret := sysman_ret_iff c.h ((c.query c.h).memSys) c.nrSubdevices c.subsPresent
  have hpersist : ∀ c2 : MemCall, c2.env = none →
      (memory_get c2 (memory_get c initMemState).st).st.memory_from_coreapi =
        (memory_get c initMemState).st.memory_from_coreapi := by
    intro c2 hc2
    have hinv := memory_get_establishes_inv hc (by simp)
    exact (memory_get_no_probe hc2 (by simp) hinv).2.1
  cases he : (c.query c.h).memSys.enum1 with
  | none =>
    have hr : (memory_get_from_sysman c.h ((c.query c.h).memSys) c.nrSubdevices
        c.subsPresent).ret ≠ 0 := by
      intro h0
      exact (hret.1 h0) he
    refine ⟨?_, ?_, ?_, hpersist⟩
    · simp only [memory_get, initMemState, hc, if_true, if_pos rfl, if_neg hr]
      rw [(memory_get_dispatch_st c ⟨1, false⟩ true).1]
      simp [he]
    · intro hne
      exact absurd rfl hne
    · simp only [memory_get, initMemState, hc, if_true, if_pos rfl, if_neg hr]
      rw [(memory_get_dispatch_st c ⟨1, false⟩ true).2]
  | some k =>
    have hr : (memory_get_from_sysman c.h ((c.query c.h).memSys) c.nrSubdevices
        c.subsPresent).ret = 0 := hret.2 (by simp [he])
    refine ⟨?_, ?_, ?_, hpersist⟩
    · simp only [memory_get, initMemState, hc, if_true, if_pos rfl, if_pos hr]
      simp [he]
    · intro _
      simp only [memory_get, initMemState, hc, if_true, if_pos rfl, if_pos hr]
    · simp only [memory_get, initMemState, hc, if_true, if_pos rfl, if_pos hr]

/-- **C10, witness**: a call whose detailed enumeration succeeds with zero
modules while everything later would fail. -/
theorem c10_commit_witness :
    (⟨fun _ => baseOracle, none, 0, false, 0, [], false⟩ : MemCall).env = none ∧
    (((memory_get (⟨fun _ => baseOracle, none, 0, false, 0, [], false⟩ : MemCall)
          initMemState).st.memory_from_coreapi = 1 ↔
        ((fun _ : Nat => baseOracle) 0).memSys.enum1 = none) ∧
     (((fun _ : Nat => baseOracle) 0).memSys.enum1 ≠ none →
       (memory_get (⟨fun _ => baseOracle, none, 0, false, 0, [], false⟩ : MemCall)
          initMemState).st.memory_from_coreapi = 0) ∧
     (memory_get (⟨fun _ => baseOracle, none, 0, false, 0, [], false⟩ : MemCall)
        initMemState).probed = true ∧
     (∀ c2 : MemCall, c2.env = none →
       (memory_get c2 (memory_get
           (⟨fun _ => baseOracle, none, 0, false, 0, [], false⟩ : MemCall)
           initMemState).st).st.memory_from_coreapi =
         (memory_get (⟨fun _ => baseOracle, none, 0, false, 0, [], false⟩ : MemCall)
            initMemState).st.memory_from_coreapi)) :=
  ⟨rfl, c10_basic_iff_first_enum_error _ rfl⟩

end LevelZero
